import Mathlib

/-!
# Global identifiers (GIDs) of `hpx/runtime/naming/name.hpp`

A shallow embedding of `hpx::naming::gid_type` and of the free functions of
`hpx::naming` and `hpx::naming::detail` that read and write its packed bit
fields, followed by theorems about equality, ordering, hashing, credits,
locality conversion and split-then-drop sequences on one handle.

Machine words are natural numbers; `std::uint64_t` results are reduced modulo
`2^64` wherever the C++ operation can leave the range, and `std::int64_t`
values are integers obtained through `to_int64`.  `HPX_ASSERT` is a debug-only
check and is not part of the computed value.
-/

namespace hpx.naming

/-- Complement of a `std::uint64_t` word: the C++ operator `~` at width 64. -/
def not64 (x : Nat) : Nat := (2 ^ 64 - 1) ^^^ (x % 2 ^ 64)

/-- Conversion of a `std::uint64_t` to `std::int64_t` (two's complement). -/
def to_int64 (x : Nat) : Int :=
  if x % 2 ^ 64 < 2 ^ 63 then ((x % 2 ^ 64 : Nat) : Int)
  else ((x % 2 ^ 64 : Nat) : Int) - 2 ^ 64

/-- Conversion of a signed integer to `std::uint64_t` (reduction modulo `2^64`). -/
def to_uint64 (x : Int) : Nat := (x % 2 ^ 64).toNat

/-- Wrap of a signed integer into the range of `std::int32_t`. -/
def to_int32 (x : Int) : Int := (x + 2 ^ 31) % 2 ^ 32 - 2 ^ 31

/-- The two words of `struct gid_type`: `id_msb_` and `id_lsb_`. -/
structure gid_type where
  id_msb_ : Nat
  id_lsb_ : Nat
deriving DecidableEq, Repr

namespace gid_type

def credit_base_mask : Nat := 0x1f
def credit_shift : Nat := 24
def credit_mask : Nat := credit_base_mask <<< credit_shift
def was_split_mask : Nat := 0x80000000
def has_credits_mask : Nat := 0x40000000
def is_locked_mask : Nat := 0x20000000
def locality_id_mask : Nat := 0xffffffff00000000
def locality_id_shift : Nat := 32
def virtual_memory_mask : Nat := 0x3fffff
def dont_cache_mask : Nat := 0x800000
def is_migratable : Nat := 0x400000
def dynamically_assigned : Nat := 0x1
def component_type_base_mask : Nat := 0xfffff
def component_type_shift : Nat := 1
def component_type_mask : Nat := component_type_base_mask <<< component_type_shift
def credit_bits_mask : Nat := credit_mask ||| was_split_mask ||| has_credits_mask
def internal_bits_mask : Nat :=
  credit_bits_mask ||| is_locked_mask ||| dont_cache_mask ||| is_migratable
def special_bits_mask : Nat :=
  locality_id_mask ||| internal_bits_mask ||| component_type_mask

def get_msb (g : gid_type) : Nat := g.id_msb_
def get_lsb (g : gid_type) : Nat := g.id_lsb_
def set_msb (g : gid_type) (msb : Nat) : gid_type := { g with id_msb_ := msb }
def set_lsb (g : gid_type) (lsb : Nat) : gid_type := { g with id_lsb_ := lsb }

end gid_type

namespace detail

/-- The function `strip_internal_bits_from_gid(std::uint64_t)`. -/
def strip_internal_bits_from_gid (msb : Nat) : Nat :=
  msb &&& not64 gid_type.internal_bits_mask

/-- The function `strip_lock_from_gid(std::uint64_t)`. -/
def strip_lock_from_gid (msb : Nat) : Nat :=
  msb &&& not64 gid_type.is_locked_mask

end detail

namespace gid_type

/-- The constructor `gid_type(msb_id, lsb_id)`; it strips the lock bit. -/
def mk2 (msb_id lsb_id : Nat) : gid_type :=
  { id_msb_ := detail.strip_lock_from_gid msb_id, id_lsb_ := lsb_id }

/-- The copy constructor `gid_type(gid_type const&)`. -/
def copy (rhs : gid_type) : gid_type :=
  { id_msb_ := detail.strip_lock_from_gid rhs.get_msb, id_lsb_ := rhs.get_lsb }

/-- The comparison `operator==`; the stripped words are held in `std::int64_t`. -/
def operator_eq (lhs rhs : gid_type) : Bool :=
  let lhs_msb : Int := to_int64 (detail.strip_internal_bits_from_gid lhs.id_msb_)
  let rhs_msb : Int := to_int64 (detail.strip_internal_bits_from_gid rhs.id_msb_)
  decide (lhs_msb = rhs_msb) && decide (lhs.id_lsb_ = rhs.id_lsb_)

/-- The comparison `operator!=`. -/
def operator_ne (lhs rhs : gid_type) : Bool := !(operator_eq lhs rhs)

/-- The comparison `operator<`; the stripped words are held in `std::int64_t`. -/
def operator_lt (lhs rhs : gid_type) : Bool :=
  let lhs_msb : Int := to_int64 (detail.strip_internal_bits_from_gid lhs.id_msb_)
  let rhs_msb : Int := to_int64 (detail.strip_internal_bits_from_gid rhs.id_msb_)
  if lhs_msb < rhs_msb then true
  else if lhs_msb > rhs_msb then false
  else decide (lhs.id_lsb_ < rhs.id_lsb_)

/-- The comparison `operator<=`. -/
def operator_le (lhs rhs : gid_type) : Bool :=
  let lhs_msb : Int := to_int64 (detail.strip_internal_bits_from_gid lhs.id_msb_)
  let rhs_msb : Int := to_int64 (detail.strip_internal_bits_from_gid rhs.id_msb_)
  if lhs_msb < rhs_msb then true
  else if lhs_msb > rhs_msb then false
  else decide (lhs.id_lsb_ ≤ rhs.id_lsb_)

/-- The comparison `operator>`. -/
def operator_gt (lhs rhs : gid_type) : Bool := !(operator_le lhs rhs)

/-- The comparison `operator>=`. -/
def operator_ge (lhs rhs : gid_type) : Bool := !(operator_lt lhs rhs)

end gid_type

/-- The private member `gid_type::acquire_lock`: the returned flag tells whether
the lock bit was taken. -/
def gid_type.acquire_lock (g : gid_type) : Bool × gid_type :=
  let was_locked : Bool := (g.id_msb_ &&& gid_type.is_locked_mask) != 0
  if !was_locked then
    (true, { g with id_msb_ := g.id_msb_ ||| gid_type.is_locked_mask })
  else
    (false, g)

/-- The private member `gid_type::relinquish_lock`. -/
def gid_type.relinquish_lock (g : gid_type) : gid_type :=
  { g with id_msb_ := g.id_msb_ &&& not64 gid_type.is_locked_mask }

/-- The private member `gid_type::is_locked`. -/
def gid_type.is_locked (g : gid_type) : Bool :=
  (g.id_msb_ &&& gid_type.is_locked_mask) != 0

/-- The loop of `gid_type::lock` run by one thread alone: every round calls
`acquire_lock`; a failed round leaves the word as it is (nobody else clears the
bit while this thread yields), and `none` means the rounds ran out. -/
def gid_type.lock_loop : Nat → gid_type → Option gid_type
  | 0, _ => none
  | fuel + 1, g =>
    let r := g.acquire_lock
    if r.1 then some r.2 else gid_type.lock_loop fuel r.2

/-- The member `gid_type::lock`, with a bound on the rounds of its loop. -/
def gid_type.lock (fuel : Nat) (g : gid_type) : Option gid_type :=
  gid_type.lock_loop fuel g

/-- The member `gid_type::unlock`. -/
def gid_type.unlock (g : gid_type) : gid_type := g.relinquish_lock

/-- The function `get_gid_from_locality_id`. -/
def get_gid_from_locality_id (locality_id : Nat) : gid_type :=
  gid_type.mk2 (((locality_id % 2 ^ 32 + 1) <<< gid_type.locality_id_shift) % 2 ^ 64) 0

/-- The function `get_locality_id_from_gid(std::uint64_t)`; the subtraction is
done in `std::uint32_t`. -/
def get_locality_id_from_gid (msb : Nat) : Nat :=
  ((msb >>> gid_type.locality_id_shift) % 2 ^ 32 + 2 ^ 32 - 1) % 2 ^ 32

/-- The function `get_locality_id_from_gid(gid_type const&)`. -/
def get_locality_id_from_gid_ref (id : gid_type) : Nat :=
  get_locality_id_from_gid id.get_msb

namespace detail

/-- The loop of `detail::log2`: `val >>= 1` is the arithmetic shift of a
`std::int64_t`, `ret` counts the rounds, and `none` means the rounds ran out. -/
def log2_loop : Nat → Int → Int → Option Int
  | 0, _, _ => none
  | fuel + 1, val, ret =>
    if val ≠ 0 then log2_loop fuel (val >>> (1 : Nat)) (ret + 1) else some ret

/-- The function `detail::log2`, with a bound on the rounds of its loop. -/
def log2 (fuel : Nat) (val : Int) : Option Int := log2_loop fuel val (-1)

/-- The function `detail::power2`: `1 << log2credits` in `std::int64_t`; the
shift is defined by C++ for counts `0..62` only. -/
def power2 (log2credits : Int) : Int := to_int64 (1 <<< log2credits.toNat)

/-- The function `detail::has_credits`. -/
def has_credits (id : gid_type) : Bool :=
  (id.get_msb &&& gid_type.has_credits_mask) != 0

/-- The function `detail::gid_was_split`. -/
def gid_was_split (id : gid_type) : Bool :=
  (id.get_msb &&& gid_type.was_split_mask) != 0

/-- The function `detail::set_credit_split_mask_for_gid`. -/
def set_credit_split_mask_for_gid (id : gid_type) : gid_type :=
  id.set_msb (id.get_msb ||| gid_type.was_split_mask)

/-- The function `detail::get_log2credit_from_gid`. -/
def get_log2credit_from_gid (id : gid_type) : Int :=
  (((id.get_msb >>> gid_type.credit_shift) &&& gid_type.credit_base_mask : Nat) : Int)

/-- The function `detail::get_credit_from_gid`. -/
def get_credit_from_gid (id : gid_type) : Int :=
  if has_credits id then power2 (get_log2credit_from_gid id) else 0

/-- The function `detail::get_stripped_gid`. -/
def get_stripped_gid (id : gid_type) : gid_type :=
  let msb := strip_internal_bits_from_gid id.get_msb
  let lsb := id.get_lsb
  gid_type.mk2 msb lsb

/-- The function `detail::strip_credits_from_gid(std::uint64_t)`. -/
def strip_credits_from_gid (msb : Nat) : Nat :=
  msb &&& not64 gid_type.credit_bits_mask

/-- The function `detail::strip_credits_from_gid(gid_type&)`. -/
def strip_credits_from_gid_ref (id : gid_type) : gid_type :=
  id.set_msb (strip_credits_from_gid id.get_msb)

/-- The function `detail::set_log2credit_for_gid`; the shift is done in
`std::int32_t` and the result widened to `std::uint64_t` for the mask. -/
def set_log2credit_for_gid (id : gid_type) (log2credits : Int) : gid_type :=
  id.set_msb ((id.get_msb &&& not64 gid_type.credit_mask) |||
    (to_uint64 (to_int32 (log2credits * 2 ^ gid_type.credit_shift)) &&&
      gid_type.credit_mask) |||
    gid_type.has_credits_mask)

/-- The function `detail::set_credit_for_gid`; `fuel` bounds the loop of
`detail::log2`. -/
def set_credit_for_gid (fuel : Nat) (id : gid_type) (credits : Int) :
    Option gid_type :=
  if credits ≠ 0 then
    match log2 fuel credits with
    | none => none
    | some log2credits => some (set_log2credit_for_gid id log2credits)
  else
    some (strip_credits_from_gid_ref id)

/-- Modelled from the spec: `detail::split_credits_for_gid_locked` is declared in
the header and defined in a source file that is absent.  This is the part of
"Split" done while the lock is held: when `log2_credit = 0` the credit is first
replenished (`replenish` stands for the reply of the owning locality), then
`log2_credit` is decremented by one on the GID and on the returned copy, and
`was_split` is set on both.  The result is the GID afterwards and the copy. -/
def split_credits_for_gid_locked (replenish : gid_type → gid_type)
    (id : gid_type) : gid_type × gid_type :=
  let id1 := if get_log2credit_from_gid id = 0 then replenish id else id
  let log2credits := get_log2credit_from_gid id1
  let newid := gid_type.copy id1
  let id2 := set_credit_split_mask_for_gid (set_log2credit_for_gid id1 (log2credits - 1))
  let newid2 :=
    set_credit_split_mask_for_gid (set_log2credit_for_gid newid (log2credits - 1))
  (id2, newid2)

/-- Modelled from the spec: `detail::split_credits_for_gid` is declared in the
header and defined in a source file that is absent.  The four steps of "Split":
lock the GID, split under the lock, unlock, return the copy; `none` means the
lock was not obtained within `fuel` rounds. -/
def split_credits_for_gid (replenish : gid_type → gid_type) (fuel : Nat)
    (id : gid_type) : Option (gid_type × gid_type) :=
  match id.lock fuel with
  | none => none
  | some locked =>
    let r := split_credits_for_gid_locked replenish locked
    some (r.1.unlock, r.2)

end detail

/-- The default constructor `gid_type()`. -/
def gid_type.mk0 : gid_type := { id_msb_ := 0, id_lsb_ := 0 }

/-- The constant `invalid_gid`, built by the default constructor. -/
def invalid_gid : gid_type := gid_type.mk0

/-- The conversion `gid_type::operator bool`. -/
def gid_type.operator_bool (g : gid_type) : Bool :=
  (0 != g.id_lsb_) || (0 != g.id_msb_)

/-- The move constructor `gid_type(gid_type&&)`: the new GID and the source
afterwards. -/
def gid_type.move (rhs : gid_type) : gid_type × gid_type :=
  ({ id_msb_ := detail.strip_lock_from_gid rhs.get_msb, id_lsb_ := rhs.get_lsb },
    { id_msb_ := 0, id_lsb_ := 0 })

/-- The copy assignment `operator=(gid_type const&)`.  GIDs live in a store `m`
indexed by address; `this_ptr` and `rhs_ptr` are the addresses of the two
operands, so that `this != &rhs` can be tested. -/
def gid_type.operator_assign (m : Nat → gid_type) (this_ptr rhs_ptr : Nat) :
    Nat → gid_type :=
  if this_ptr ≠ rhs_ptr then
    Function.update m this_ptr
      { id_msb_ := detail.strip_lock_from_gid (m rhs_ptr).get_msb,
        id_lsb_ := (m rhs_ptr).get_lsb }
  else m

/-- The move assignment `operator=(gid_type&&)`, on the same store of GIDs. -/
def gid_type.operator_assign_move (m : Nat → gid_type) (this_ptr rhs_ptr : Nat) :
    Nat → gid_type :=
  if this_ptr ≠ rhs_ptr then
    Function.update
      (Function.update m this_ptr
        { id_msb_ := detail.strip_lock_from_gid (m rhs_ptr).get_msb,
          id_lsb_ := (m rhs_ptr).get_lsb })
      rhs_ptr { id_msb_ := 0, id_lsb_ := 0 }
  else m

/-- The operator `gid_type & std::uint64_t`. -/
def gid_type.operator_and (lhs : gid_type) (rhs : Nat) : gid_type :=
  gid_type.mk2 lhs.id_msb_ (lhs.id_lsb_ &&& rhs)

/-- The member `gid_type::try_lock`: the flag of `acquire_lock` and the GID
afterwards. -/
def gid_type.try_lock (g : gid_type) : Bool × gid_type :=
  let r := g.acquire_lock
  if r.1 then (true, r.2) else (false, r.2)

/-- The function `get_locality_from_gid`. -/
def get_locality_from_gid (id : gid_type) : gid_type :=
  get_gid_from_locality_id (get_locality_id_from_gid_ref id)

/-- The function `is_locality(gid_type const&)`. -/
def is_locality (gid : gid_type) : Bool :=
  (get_locality_from_gid gid).operator_eq gid

/-- The function `refers_to_virtual_memory(std::uint64_t)`. -/
def refers_to_virtual_memory (msb : Nat) : Bool :=
  !((msb &&& gid_type.virtual_memory_mask) != 0)

/-- The function `replace_component_type`; `type` is a `std::uint32_t`. -/
def replace_component_type (gid : gid_type) (type : Nat) : gid_type :=
  let msb := gid.get_msb &&& not64 gid_type.component_type_mask
  let msb := msb ||| ((((type % 2 ^ 32) <<< gid_type.component_type_shift) % 2 ^ 64) &&&
    gid_type.component_type_mask)
  gid_type.mk2 msb gid.get_lsb

namespace detail

/-- The function `detail::get_component_type_from_gid`; the result is a
`std::uint32_t`. -/
def get_component_type_from_gid (msb : Nat) : Nat :=
  ((msb >>> gid_type.component_type_shift) &&& gid_type.component_type_base_mask) % 2 ^ 32

/-- The function `detail::strip_internal_bits_and_component_type_from_gid`. -/
def strip_internal_bits_and_component_type_from_gid (msb : Nat) : Nat :=
  msb &&& not64 (gid_type.internal_bits_mask ||| gid_type.component_type_mask)

/-- The function `detail::get_internal_bits`. -/
def get_internal_bits (msb : Nat) : Nat :=
  msb &&& (gid_type.internal_bits_mask ||| gid_type.component_type_mask)

/-- The function `detail::strip_internal_bits_and_locality_from_gid`. -/
def strip_internal_bits_and_locality_from_gid (msb : Nat) : Nat :=
  msb &&& (not64 gid_type.special_bits_mask ||| gid_type.component_type_mask)

/-- The enumeration `detail::id_type_management`. -/
inductive id_type_management where
  | unknown_deleter
  | unmanaged
  | managed
  | managed_move_credit
deriving DecidableEq, Repr

/-- The struct `detail::id_type_impl`: a `gid_type` base, the reference count
`count_` and the management type `type_`. -/
structure id_type_impl where
  gid : gid_type
  count_ : Nat
  type_ : id_type_management
deriving DecidableEq, Repr

/-- The constructor `id_type_impl(init_no_addref, gid_type const&, id_type_management)`:
the base is copy constructed, the count starts at 1. -/
def id_type_impl.from_gid (gid : gid_type) (t : id_type_management) : id_type_impl :=
  { gid := gid_type.copy gid, count_ := 1, type_ := t }

end detail

/-- Modelled from the spec: the class `id_type` is declared in `id_type.hpp`,
which is absent.  A handle wraps a GID plus a management mode and a local
reference count: it holds the `id_type_impl` it was constructed with. -/
structure id_type where
  gid_ : detail.id_type_impl
deriving DecidableEq, Repr

/-- Modelled from the spec: the constructor `id_type(gid_type const&, management_type)`
of the absent `id_type.hpp`; a handle is constructed from a raw GID and a mode. -/
def id_type.from_gid (gid : gid_type) (t : detail.id_type_management) : id_type :=
  { gid_ := detail.id_type_impl.from_gid gid t }

def id_type.get_msb (id : id_type) : Nat := id.gid_.gid.get_msb
def id_type.get_lsb (id : id_type) : Nat := id.gid_.gid.get_lsb
def id_type.get_management_type (id : id_type) : detail.id_type_management := id.gid_.type_

/-- Modelled from the spec: `operator+(gid_type const&, gid_type const&)` is
declared in the header and defined in a source file that is absent.  The sum of
the least significant words is taken with carry; the most significant words are
added excluding the special-bits region (`special_bits_mask`), the carry going
into the non-special part; credit, locality, lock and type bits do not
propagate, the special bits of the result are those of the left operand. -/
def gid_type.operator_add (lhs rhs : gid_type) : gid_type :=
  let lsb := (lhs.id_lsb_ + rhs.id_lsb_) % 2 ^ 64
  let carry := if lhs.id_lsb_ + rhs.id_lsb_ ≥ 2 ^ 64 then 1 else 0
  let sum := ((lhs.id_msb_ &&& not64 gid_type.special_bits_mask) +
    (rhs.id_msb_ &&& not64 gid_type.special_bits_mask) + carry) % 2 ^ 64
  { id_msb_ := (lhs.id_msb_ &&& gid_type.special_bits_mask) |||
      (sum &&& not64 gid_type.special_bits_mask),
    id_lsb_ := lsb }

/-- The operator `gid_type + std::uint64_t`, which adds `gid_type(0, rhs)`. -/
def gid_type.operator_add_u64 (lhs : gid_type) (rhs : Nat) : gid_type :=
  lhs.operator_add (gid_type.mk2 0 rhs)

end hpx.naming

namespace hpx.traits

open hpx.naming

/-- The converter `get_remote_result<naming::id_type, naming::gid_type>::call`. -/
def get_remote_result.call (rhs : gid_type) : id_type :=
  let has_credits := detail.has_credits rhs
  id_type.from_gid rhs
    (if has_credits then detail.id_type_management.managed
      else detail.id_type_management.unmanaged)

/-- The converter
`get_remote_result<std::vector<id_type>, std::vector<gid_type>>::call`: the loop
pushes one handle per element onto `result`. -/
def get_remote_result_vector.call (rhs : List gid_type) : List id_type :=
  rhs.foldl
    (fun result r =>
      let has_credits := detail.has_credits r
      result ++ [id_type.from_gid r
        (if has_credits then detail.id_type_management.managed
          else detail.id_type_management.unmanaged)])
    []

end hpx.traits

namespace hpx.naming

/-- The function `replace_locality_id(std::uint64_t, std::uint32_t)`. -/
def replace_locality_id (msb locality_id : Nat) : Nat :=
  let msb := msb &&& not64 gid_type.locality_id_mask
  msb ||| (get_gid_from_locality_id locality_id).get_msb

/-- The function `replace_locality_id(gid_type const&, std::uint32_t)`. -/
def replace_locality_id_ref (gid : gid_type) (locality_id : Nat) : gid_type :=
  let msb := gid.get_msb &&& not64 gid_type.locality_id_mask
  let msb := msb ||| (get_gid_from_locality_id locality_id).get_msb
  gid_type.mk2 msb gid.get_lsb

namespace detail

/-- The function `detail::store_in_cache`. -/
def store_in_cache (id : gid_type) : Bool :=
  if (id.get_msb &&& gid_type.dont_cache_mask) != 0 then false else true

/-- The function `detail::set_dont_store_in_cache(gid_type&)`. -/
def set_dont_store_in_cache (gid : gid_type) : gid_type :=
  gid.set_msb (gid.get_msb ||| gid_type.dont_cache_mask)

/-- The function `detail::is_migratable`. -/
def is_migratable (id : gid_type) : Bool :=
  (id.get_msb &&& gid_type.is_migratable) != 0

/-- The function `detail::set_is_migratable`. -/
def set_is_migratable (gid : gid_type) : gid_type :=
  gid.set_msb (gid.get_msb ||| gid_type.is_migratable)

/-- The assertion of `detail::power2`: `log2credits >= 0`. -/
def power2_asserts (log2credits : Int) : Bool := decide (log2credits ≥ 0)

/-- The two assertions of `detail::set_log2credit_for_gid`: `log2credits >= 0`
and `0 == (log2credits & ~credit_base_mask)`, the latter computed in
`std::uint64_t`. -/
def set_log2credit_for_gid_asserts (log2credits : Int) : Bool :=
  decide (log2credits ≥ 0) &&
    decide (0 = (to_uint64 log2credits &&& not64 gid_type.credit_base_mask))

/-- The assertions met by a call of `detail::set_credit_for_gid`: for
`credits != 0` the one of `power2`, then `power2(log2credits) == credits`, then
those of `set_log2credit_for_gid`; for `credits = 0` none.  The result is
whether all of them hold; `none` means the loop of `log2` ran out of rounds. -/
def set_credit_for_gid_asserts (fuel : Nat) (credits : Int) : Option Bool :=
  if credits ≠ 0 then
    match log2 fuel credits with
    | none => none
    | some log2credits =>
      some (power2_asserts log2credits && decide (power2 log2credits = credits) &&
        set_log2credit_for_gid_asserts log2credits)
  else
    some true

end detail

/-- The assignment `operator=(std::uint64_t)`, on the store of GIDs used for
the other assignments. -/
def gid_type.operator_assign_lsb (m : Nat → gid_type) (this_ptr : Nat) (lsb_id : Nat) :
    Nat → gid_type :=
  Function.update m this_ptr { id_msb_ := 0, id_lsb_ := lsb_id }

namespace detail

/-- The function `detail::strip_internal_bits_except_dont_cache_from_gid(std::uint64_t)`. -/
def strip_internal_bits_except_dont_cache_from_gid (msb : Nat) : Nat :=
  msb &&& not64 (gid_type.credit_bits_mask ||| gid_type.is_locked_mask)

/-- The function `detail::get_stripped_gid_except_dont_cache`. -/
def get_stripped_gid_except_dont_cache (id : gid_type) : gid_type :=
  let msb := strip_internal_bits_except_dont_cache_from_gid id.get_msb
  let lsb := id.get_lsb
  gid_type.mk2 msb lsb

end detail

/-- The functor `std::hash<hpx::naming::gid_type>`; `h` is `std::hash<std::uint64_t>`
and every `std::size_t` value is reduced modulo `2^64`. -/
def hash_gid_type (h : Nat → Nat) (gid : gid_type) : Nat :=
  let h1 := h gid.get_lsb % 2 ^ 64
  let h2 := h (detail.strip_internal_bits_from_gid gid.get_msb) % 2 ^ 64
  h1 ^^^ ((h2 <<< 1) % 2 ^ 64)

/-! ## Bit-level facts about the masks -/

theorem internal_bits_mask_val : gid_type.internal_bits_mask = 0xFFC00000 := by decide

theorem testBit_not64 (x i : Nat) :
    (not64 x).testBit i = (decide (i < 64) && !x.testBit i) := by
  unfold not64
  rw [Nat.testBit_xor, Nat.testBit_two_pow_sub_one, Nat.testBit_mod_two_pow]
  by_cases h : i < 64 <;> simp [h]

theorem testBit_internal_bits_mask (i : Nat) :
    gid_type.internal_bits_mask.testBit i = decide (22 ≤ i ∧ i ≤ 31) := by
  rw [internal_bits_mask_val]
  have h : (0xFFC00000 : Nat) = (2 ^ 10 - 1) <<< 22 := by decide
  rw [h, Nat.testBit_shiftLeft, Nat.testBit_two_pow_sub_one]
  by_cases h1 : 22 ≤ i <;> by_cases h2 : i ≤ 31 <;> simp [h1, h2] <;> omega


theorem not64_lt (x : Nat) : not64 x < 2 ^ 64 := by
  unfold not64
  exact Nat.xor_lt_two_pow (by omega) (Nat.mod_lt _ (by omega))

theorem strip_internal_lt (msb : Nat) :
    detail.strip_internal_bits_from_gid msb < 2 ^ 64 :=
  Nat.lt_of_le_of_lt Nat.and_le_right (not64_lt _)

theorem to_int64_inj {x y : Nat} (hx : x < 2 ^ 64) (hy : y < 2 ^ 64)
    (h : to_int64 x = to_int64 y) : x = y := by
  unfold to_int64 at h
  rw [Nat.mod_eq_of_lt hx, Nat.mod_eq_of_lt hy] at h
  split_ifs at h <;> omega

theorem testBit_strip_internal (msb i : Nat) :
    (detail.strip_internal_bits_from_gid msb).testBit i =
      (msb.testBit i && decide (i < 64) && !decide (22 ≤ i ∧ i ≤ 31)) := by
  unfold detail.strip_internal_bits_from_gid
  rw [Nat.testBit_and, testBit_not64, testBit_internal_bits_mask, Bool.and_assoc]

theorem testBit_strip_lock (msb i : Nat) :
    (detail.strip_lock_from_gid msb).testBit i =
      (msb.testBit i && decide (i < 64) && !decide (i = 29)) := by
  unfold detail.strip_lock_from_gid
  have h : gid_type.is_locked_mask = 2 ^ 29 := by decide
  rw [Nat.testBit_and, testBit_not64, h, Nat.testBit_two_pow, Bool.and_assoc]
  congr 3
  exact decide_eq_decide.mpr eq_comm

/-- Stripping the internal bits after stripping the lock bit of an already
stripped word gives the stripped word. -/
theorem strip_internal_strip_lock_strip (msb : Nat) :
    detail.strip_internal_bits_from_gid
        (detail.strip_lock_from_gid (detail.strip_internal_bits_from_gid msb)) =
      detail.strip_internal_bits_from_gid msb := by
  apply Nat.eq_of_testBit_eq
  intro i
  simp only [testBit_strip_internal, testBit_strip_lock]
  by_cases h1 : i < 64 <;> by_cases h2 : i = 29 <;> simp [h1, h2]

/-- Setting bits of a mask that lies inside the internal bits does not change
the stripped word. -/
theorem strip_internal_or_mask (msb m : Nat)
    (hm : m &&& not64 gid_type.internal_bits_mask = 0) :
    detail.strip_internal_bits_from_gid (msb ||| m) =
      detail.strip_internal_bits_from_gid msb := by
  unfold detail.strip_internal_bits_from_gid
  rw [Nat.and_distrib_right, hm, Nat.or_zero]

/-- Clearing bits of a mask that lies inside the internal bits does not change
the stripped word. -/
theorem strip_internal_and_not_mask (msb m : Nat)
    (hm : m &&& not64 gid_type.internal_bits_mask = 0) :
    detail.strip_internal_bits_from_gid (msb &&& not64 m) =
      detail.strip_internal_bits_from_gid msb := by
  have hb : ∀ i, (m.testBit i && (decide (i < 64) &&
      !gid_type.internal_bits_mask.testBit i)) = false := by
    intro i
    have := congrArg (fun x => x.testBit i) hm
    simpa [Nat.testBit_and, testBit_not64] using this
  unfold detail.strip_internal_bits_from_gid
  apply Nat.eq_of_testBit_eq
  intro i
  have := hb i
  simp only [Nat.testBit_and, testBit_not64]
  revert this
  cases msb.testBit i <;> cases m.testBit i <;> cases decide (i < 64) <;>
    cases gid_type.internal_bits_mask.testBit i <;> simp


theorem operator_eq_iff (a b : gid_type) :
    a.operator_eq b = true ↔
      detail.strip_internal_bits_from_gid a.id_msb_ =
          detail.strip_internal_bits_from_gid b.id_msb_ ∧
        a.id_lsb_ = b.id_lsb_ := by
  unfold gid_type.operator_eq
  simp only [Bool.and_eq_true, decide_eq_true_eq]
  constructor
  · rintro ⟨h1, h2⟩
    exact ⟨to_int64_inj (strip_internal_lt _) (strip_internal_lt _) h1, h2⟩
  · rintro ⟨h1, h2⟩
    exact ⟨by rw [h1], h2⟩

theorem operator_lt_iff_signed (a b : gid_type) :
    a.operator_lt b = true ↔
      to_int64 (detail.strip_internal_bits_from_gid a.id_msb_) <
          to_int64 (detail.strip_internal_bits_from_gid b.id_msb_) ∨
        (detail.strip_internal_bits_from_gid a.id_msb_ =
            detail.strip_internal_bits_from_gid b.id_msb_ ∧
          a.id_lsb_ < b.id_lsb_) := by
  unfold gid_type.operator_lt
  have hinj := @to_int64_inj _ _ (strip_internal_lt a.id_msb_) (strip_internal_lt b.id_msb_)
  by_cases h1 : to_int64 (detail.strip_internal_bits_from_gid a.id_msb_) <
      to_int64 (detail.strip_internal_bits_from_gid b.id_msb_)
  · simp [h1]
  · by_cases h2 : to_int64 (detail.strip_internal_bits_from_gid a.id_msb_) >
        to_int64 (detail.strip_internal_bits_from_gid b.id_msb_)
    · have hne : detail.strip_internal_bits_from_gid a.id_msb_ ≠
          detail.strip_internal_bits_from_gid b.id_msb_ := by
        intro he
        rw [he] at h2
        exact lt_irrefl _ h2
      simp [h1, h2, hne]
    · have he : detail.strip_internal_bits_from_gid a.id_msb_ =
          detail.strip_internal_bits_from_gid b.id_msb_ := hinj (by omega)
      simp [h1, h2, he]

/-- For a 64-bit word, being below `2^63` is having bit 63 clear. -/
theorem lt_two_pow_63_iff {x : Nat} (hx : x < 2 ^ 64) :
    x < 2 ^ 63 ↔ x.testBit 63 = false := by
  rw [Nat.testBit_to_div_mod]
  simp only [decide_eq_false_iff_not]
  omega

theorem to_int64_lt_iff_of_same_sign {x y : Nat} (hx : x < 2 ^ 64) (hy : y < 2 ^ 64)
    (hs : x.testBit 63 = y.testBit 63) : to_int64 x < to_int64 y ↔ x < y := by
  have h1 := lt_two_pow_63_iff hx
  have h2 := lt_two_pow_63_iff hy
  unfold to_int64
  rw [Nat.mod_eq_of_lt hx, Nat.mod_eq_of_lt hy]
  cases hb : y.testBit 63 <;> rw [hb] at hs <;> simp only [hs, hb] at h1 h2
  · have := h1.mpr trivial
    have := h2.mpr trivial
    split_ifs <;> omega
  · have h1n : ¬ x < 2 ^ 63 := fun h => by simpa using h1.mp h
    have h2n : ¬ y < 2 ^ 63 := fun h => by simpa using h2.mp h
    split_ifs <;> omega

theorem to_int64_lt_of_sign {x y : Nat} (hx : x < 2 ^ 64) (hy : y < 2 ^ 64)
    (hxs : x.testBit 63 = true) (hys : y.testBit 63 = false) :
    to_int64 x < to_int64 y := by
  have h1 := lt_two_pow_63_iff hx
  have h2 := lt_two_pow_63_iff hy
  have h1n : ¬ x < 2 ^ 63 := fun h => by simp [h1.mp h] at hxs
  have h2n : y < 2 ^ 63 := h2.mpr hys
  unfold to_int64
  rw [Nat.mod_eq_of_lt hx, Nat.mod_eq_of_lt hy]
  split_ifs <;> omega

theorem testBit_63_strip_internal (msb : Nat) :
    (detail.strip_internal_bits_from_gid msb).testBit 63 = msb.testBit 63 := by
  rw [testBit_strip_internal]
  simp

/-! ## Facts about the credit field -/

theorem and_two_pow_ne_zero (x n : Nat) : ((x &&& 2 ^ n) != 0) = x.testBit n := by
  rw [Nat.and_two_pow]
  cases x.testBit n <;> simp

theorem has_credits_eq_testBit (g : gid_type) :
    detail.has_credits g = g.id_msb_.testBit 30 :=
  and_two_pow_ne_zero g.id_msb_ 30

theorem gid_was_split_eq_testBit (g : gid_type) :
    detail.gid_was_split g = g.id_msb_.testBit 31 :=
  and_two_pow_ne_zero g.id_msb_ 31

theorem is_locked_eq_testBit (g : gid_type) :
    g.is_locked = g.id_msb_.testBit 29 :=
  and_two_pow_ne_zero g.id_msb_ 29

theorem testBit_credit_mask (i : Nat) :
    gid_type.credit_mask.testBit i = decide (24 ≤ i ∧ i < 29) := by
  have h : gid_type.credit_mask = (2 ^ 5 - 1) <<< 24 := by decide
  rw [h, Nat.testBit_shiftLeft, Nat.testBit_two_pow_sub_one]
  by_cases h1 : 24 ≤ i <;> by_cases h2 : i < 29 <;> simp [h1, h2] <;> omega

theorem testBit_credit_bits_mask (i : Nat) :
    gid_type.credit_bits_mask.testBit i = decide (24 ≤ i ∧ i < 29 ∨ i = 30 ∨ i = 31) := by
  have h : gid_type.credit_bits_mask = gid_type.credit_mask ||| 2 ^ 31 ||| 2 ^ 30 := by
    decide
  rw [h, Nat.testBit_or, Nat.testBit_or, testBit_credit_mask, Nat.testBit_two_pow,
    Nat.testBit_two_pow]
  by_cases h1 : 24 ≤ i ∧ i < 29 <;> by_cases h2 : i = 30 <;> by_cases h3 : i = 31 <;>
    simp [h1, h2, h3] <;> omega

/-- The value shifted into the credit field, for an exponent that fits. -/
theorem to_uint64_to_int32_shift (k : Nat) (hk : k < 32) :
    to_uint64 (to_int32 ((k : Int) * 2 ^ gid_type.credit_shift)) = k <<< 24 := by
  have h24 : gid_type.credit_shift = 24 := rfl
  rw [h24, Nat.shiftLeft_eq]
  unfold to_uint64 to_int32
  omega

/-- The word written by `set_log2credit_for_gid` for an exponent below 32. -/
theorem set_log2credit_msb (g : gid_type) (k : Nat) (hk : k < 32) :
    (detail.set_log2credit_for_gid g (k : Int)).id_msb_ =
      ((g.id_msb_ &&& not64 gid_type.credit_mask) ||| ((k <<< 24) &&& gid_type.credit_mask)
        ||| 2 ^ 30) := by
  unfold detail.set_log2credit_for_gid
  rw [to_uint64_to_int32_shift k hk]
  rfl

theorem testBit_set_log2credit (g : gid_type) (k : Nat) (hk : k < 32) (i : Nat) :
    (detail.set_log2credit_for_gid g (k : Int)).id_msb_.testBit i =
      if 24 ≤ i ∧ i < 29 then k.testBit (i - 24)
      else if i = 30 then true else (decide (i < 64) && g.id_msb_.testBit i) := by
  rw [set_log2credit_msb g k hk]
  simp only [Nat.testBit_or, Nat.testBit_and, testBit_not64, testBit_credit_mask,
    Nat.testBit_shiftLeft, Nat.testBit_two_pow]
  by_cases h1 : 24 ≤ i ∧ i < 29
  · have h2 : ¬ 30 = i := by omega
    have h3 : i ≥ 24 := h1.1
    simp [h1, h2, h3]
  · by_cases h2 : i = 30
    · simp [h2]
    · have h3 : ¬ 30 = i := fun h => h2 h.symm
      by_cases h5 : i < 64 <;> simp [h1, h2, h3, h5]

/-- Reading the credit field back after `set_log2credit_for_gid`. -/
theorem get_log2credit_set_log2credit (g : gid_type) (k : Nat) (hk : k < 32) :
    detail.get_log2credit_from_gid (detail.set_log2credit_for_gid g (k : Int)) = (k : Int) := by
  unfold detail.get_log2credit_from_gid gid_type.get_msb
  congr 1
  apply Nat.eq_of_testBit_eq
  intro j
  have h5 : gid_type.credit_base_mask = 2 ^ 5 - 1 := by decide
  have h24 : gid_type.credit_shift = 24 := rfl
  rw [Nat.testBit_and, Nat.testBit_shiftRight, h5, Nat.testBit_two_pow_sub_one, h24,
    testBit_set_log2credit g k hk]
  by_cases hj : j < 5
  · have : 24 ≤ 24 + j ∧ 24 + j < 29 := by omega
    simp [this, hj]
  · have hlt : k < 2 ^ j :=
      Nat.lt_of_lt_of_le (by omega : k < 2 ^ 5) (Nat.pow_le_pow_right (by omega) (by omega))
    simp [hj, Nat.testBit_lt_two_pow hlt]

theorem has_credits_set_log2credit (g : gid_type) (k : Nat) (hk : k < 32) :
    detail.has_credits (detail.set_log2credit_for_gid g (k : Int)) = true := by
  rw [has_credits_eq_testBit, testBit_set_log2credit g k hk]
  simp

/-- The value of `power2` for an exponent below 63. -/
theorem power2_natCast (k : Nat) (hk : k < 63) : detail.power2 (k : Int) = 2 ^ k := by
  unfold detail.power2 to_int64
  have hlt : 2 ^ k < 2 ^ 63 := Nat.pow_lt_pow_right (by omega) hk
  have h64 : (2 ^ k) % 2 ^ 64 = 2 ^ k := Nat.mod_eq_of_lt (by omega)
  rw [Int.toNat_ofNat, Nat.one_shiftLeft, h64, if_pos hlt]
  push_cast
  rfl

/-- The loop of `log2` on a power of two: it ends after `k + 1` halvings. -/
theorem log2_loop_two_pow (k : Nat) :
    ∀ (fuel : Nat) (ret : Int), k + 2 ≤ fuel →
      detail.log2_loop fuel (2 ^ k) ret = some (ret + k + 1) := by
  induction k with
  | zero =>
    intro fuel ret hf
    obtain ⟨f, rfl⟩ : ∃ f, fuel = f + 2 := ⟨fuel - 2, by omega⟩
    have hsh : (1 : Int) >>> (1 : Nat) = 0 := by decide
    simp [detail.log2_loop, hsh]
  | succ n ih =>
    intro fuel ret hf
    obtain ⟨f, rfl⟩ : ∃ f, fuel = f + 1 := ⟨fuel - 1, by omega⟩
    have hne : (2 : Int) ^ (n + 1) ≠ 0 := by positivity
    have hsh : ((2 : Int) ^ (n + 1)) >>> (1 : Nat) = 2 ^ n := by
      rw [Int.shiftRight_eq_div_pow, pow_succ]
      simp
    rw [detail.log2_loop, if_pos hne, hsh, ih f (ret + 1) (by omega)]
    push_cast
    congr 1
    ring

theorem log2_two_pow (k fuel : Nat) (hf : k + 2 ≤ fuel) :
    detail.log2 fuel (2 ^ k) = some (k : Int) := by
  unfold detail.log2
  rw [log2_loop_two_pow k fuel (-1) hf]
  congr 1
  ring

theorem testBit_strip_credits (msb i : Nat) :
    (detail.strip_credits_from_gid msb).testBit i =
      (msb.testBit i && decide (i < 64) &&
        !decide (24 ≤ i ∧ i < 29 ∨ i = 30 ∨ i = 31)) := by
  unfold detail.strip_credits_from_gid
  rw [Nat.testBit_and, testBit_not64, testBit_credit_bits_mask, Bool.and_assoc]

/-! ## Facts used for splitting credits -/

theorem get_log2credit_eq (g : gid_type) :
    detail.get_log2credit_from_gid g = (((g.id_msb_ / 2 ^ 24) % 2 ^ 5 : Nat) : Int) := by
  unfold detail.get_log2credit_from_gid gid_type.get_msb
  have h5 : gid_type.credit_base_mask = 2 ^ 5 - 1 := by decide
  have h24 : gid_type.credit_shift = 24 := rfl
  rw [h5, h24, Nat.and_pow_two_sub_one_eq_mod, Nat.shiftRight_eq_div_pow]

/-- The credit field is read from bits 24..28 only. -/
theorem get_log2credit_congr (a b : gid_type)
    (h : ∀ i, 24 ≤ i → i < 29 → a.id_msb_.testBit i = b.id_msb_.testBit i) :
    detail.get_log2credit_from_gid a = detail.get_log2credit_from_gid b := by
  unfold detail.get_log2credit_from_gid gid_type.get_msb
  congr 1
  apply Nat.eq_of_testBit_eq
  intro j
  have h5 : gid_type.credit_base_mask = 2 ^ 5 - 1 := by decide
  have h24 : gid_type.credit_shift = 24 := rfl
  rw [h5, h24, Nat.testBit_and, Nat.testBit_and, Nat.testBit_shiftRight,
    Nat.testBit_shiftRight, Nat.testBit_two_pow_sub_one]
  by_cases hj : j < 5
  · rw [h (24 + j) (by omega) (by omega)]
  · simp [hj]

/-- The credit is read from bits 24..28 and bit 30 only. -/
theorem get_credit_congr (a b : gid_type)
    (h : ∀ i, 24 ≤ i → i < 29 → a.id_msb_.testBit i = b.id_msb_.testBit i)
    (h30 : a.id_msb_.testBit 30 = b.id_msb_.testBit 30) :
    detail.get_credit_from_gid a = detail.get_credit_from_gid b := by
  unfold detail.get_credit_from_gid
  rw [get_log2credit_congr a b h, has_credits_eq_testBit, has_credits_eq_testBit, h30]

theorem testBit_set_credit_split_mask (g : gid_type) (i : Nat) :
    (detail.set_credit_split_mask_for_gid g).id_msb_.testBit i =
      (g.id_msb_.testBit i || decide (i = 31)) := by
  have h : gid_type.was_split_mask = 2 ^ 31 := by decide
  show (g.id_msb_ ||| gid_type.was_split_mask).testBit i = _
  rw [h, Nat.testBit_or, Nat.testBit_two_pow]
  congr 1
  exact decide_eq_decide.mpr eq_comm

theorem testBit_relinquish_lock (g : gid_type) (i : Nat) :
    g.relinquish_lock.id_msb_.testBit i =
      (g.id_msb_.testBit i && decide (i < 64) && !decide (i = 29)) :=
  testBit_strip_lock g.id_msb_ i

theorem acquire_lock_of_unlocked (g : gid_type) (h : g.is_locked = false) :
    g.acquire_lock = (true, { g with id_msb_ := g.id_msb_ ||| 2 ^ 29 }) := by
  unfold gid_type.is_locked at h
  unfold gid_type.acquire_lock
  simp only [h]
  rfl

theorem acquire_lock_of_locked (g : gid_type) (h : g.is_locked = true) :
    g.acquire_lock = (false, g) := by
  unfold gid_type.is_locked at h
  unfold gid_type.acquire_lock
  simp only [h]
  rfl

/-- A thread alone never obtains a lock bit that is already set. -/
theorem lock_loop_of_locked (g : gid_type) (h : g.is_locked = true) :
    ∀ fuel, gid_type.lock_loop fuel g = none := by
  intro fuel
  induction fuel with
  | zero => rfl
  | succ n ih =>
    rw [gid_type.lock_loop, acquire_lock_of_locked g h]
    simpa using ih

/-- On a GID whose lock bit is clear the first round of `lock` succeeds. -/
theorem lock_loop_of_unlocked (g : gid_type) (h : g.is_locked = false) (fuel : Nat) :
    gid_type.lock_loop (fuel + 1) g = some { g with id_msb_ := g.id_msb_ ||| 2 ^ 29 } := by
  rw [gid_type.lock_loop, acquire_lock_of_unlocked g h]
  rfl

/-- What `split_credits_for_gid_locked` does to a GID with credits whose credit
field is at least 1. -/
theorem split_locked_props (replenish : gid_type → gid_type) (g : gid_type)
    (hhc : detail.has_credits g = true) (hk : 1 ≤ detail.get_log2credit_from_gid g) :
    let p := detail.split_credits_for_gid_locked replenish g
    detail.get_credit_from_gid p.1 + detail.get_credit_from_gid p.2 =
        detail.get_credit_from_gid g ∧
      detail.get_log2credit_from_gid p.1 = detail.get_log2credit_from_gid g - 1 ∧
      detail.get_log2credit_from_gid p.2 = detail.get_log2credit_from_gid g - 1 ∧
      detail.gid_was_split p.1 = true ∧ detail.gid_was_split p.2 = true ∧
      detail.has_credits p.1 = true ∧ detail.has_credits p.2 = true ∧
      p.1.id_lsb_ = g.id_lsb_ ∧ p.2.id_lsb_ = g.id_lsb_ ∧
      p.1.is_locked = g.is_locked := by
  intro p
  have hf := get_log2credit_eq g
  generalize hkdef : (g.id_msb_ / 2 ^ 24) % 2 ^ 5 = k at hf
  have hk32 : k < 32 := by rw [← hkdef]; exact Nat.mod_lt _ (by decide)
  rw [hf] at hk
  have hk1 : 1 ≤ k := by exact_mod_cast hk
  have hne : ¬ detail.get_log2credit_from_gid g = 0 := by rw [hf]; omega
  have hsub : ((k : Int) - 1) = ((k - 1 : Nat) : Int) := by omega
  have hp : p = (detail.set_credit_split_mask_for_gid
        (detail.set_log2credit_for_gid g ((k - 1 : Nat) : Int)),
      detail.set_credit_split_mask_for_gid
        (detail.set_log2credit_for_gid (gid_type.copy g) ((k - 1 : Nat) : Int))) := by
    show detail.split_credits_for_gid_locked replenish g = _
    unfold detail.split_credits_for_gid_locked
    have hne2 : ¬ ((k : Int) = 0) := by omega
    simp only [hf, if_neg hne2, hsub]
  have key : ∀ y : gid_type,
      detail.get_log2credit_from_gid (detail.set_credit_split_mask_for_gid
          (detail.set_log2credit_for_gid y ((k - 1 : Nat) : Int))) = ((k - 1 : Nat) : Int) ∧
      detail.has_credits (detail.set_credit_split_mask_for_gid
          (detail.set_log2credit_for_gid y ((k - 1 : Nat) : Int))) = true ∧
      detail.gid_was_split (detail.set_credit_split_mask_for_gid
          (detail.set_log2credit_for_gid y ((k - 1 : Nat) : Int))) = true := by
    intro y
    refine ⟨?_, ?_, ?_⟩
    · refine Eq.trans (get_log2credit_congr _
        (detail.set_log2credit_for_gid y ((k - 1 : Nat) : Int)) ?_)
        (get_log2credit_set_log2credit y (k - 1) (by omega))
      intro i h1 h2
      rw [testBit_set_credit_split_mask]
      have : ¬ i = 31 := by omega
      simp [this]
    · rw [has_credits_eq_testBit, testBit_set_credit_split_mask,
        ← has_credits_eq_testBit, has_credits_set_log2credit y (k - 1) (by omega)]
      rfl
    · rw [gid_was_split_eq_testBit, testBit_set_credit_split_mask]
      simp
  have credit : ∀ y : gid_type, detail.get_credit_from_gid
      (detail.set_credit_split_mask_for_gid
        (detail.set_log2credit_for_gid y ((k - 1 : Nat) : Int))) = 2 ^ (k - 1) := by
    intro y
    unfold detail.get_credit_from_gid
    rw [(key y).2.1, if_pos rfl, (key y).1, power2_natCast _ (by omega)]
  have hg : detail.get_credit_from_gid g = 2 ^ k := by
    unfold detail.get_credit_from_gid
    rw [hhc, if_pos rfl, hf, power2_natCast _ (by omega)]
  rw [hp]
  refine ⟨?_, ?_, ?_, (key g).2.2, (key _).2.2, (key g).2.1, (key _).2.1, rfl, rfl, ?_⟩
  · rw [credit g, credit (gid_type.copy g), hg]
    obtain ⟨j, rfl⟩ : ∃ j, k = j + 1 := ⟨k - 1, by omega⟩
    rw [Nat.add_sub_cancel, pow_succ]
    ring
  · rw [(key g).1, hf, hsub]
  · rw [(key _).1, hf, hsub]
  · rw [is_locked_eq_testBit, is_locked_eq_testBit, testBit_set_credit_split_mask,
      testBit_set_log2credit g (k - 1) (by omega)]
    simp

/-- GIDs with the same least significant word that agree on every bit of the
most significant word outside the internal bits compare equal. -/
theorem operator_eq_of_bits (a b : gid_type) (hl : a.id_lsb_ = b.id_lsb_)
    (h : ∀ i, i < 64 → (i < 22 ∨ 32 ≤ i) → a.id_msb_.testBit i = b.id_msb_.testBit i) :
    a.operator_eq b = true := by
  rw [operator_eq_iff]
  refine ⟨?_, hl⟩
  apply Nat.eq_of_testBit_eq
  intro i
  rw [testBit_strip_internal, testBit_strip_internal]
  by_cases h64 : i < 64
  · by_cases hi : i < 22 ∨ 32 ≤ i
    · rw [h i h64 hi]
    · have : 22 ≤ i ∧ i ≤ 31 := by omega
      simp [this]
  · simp [h64]

theorem split_locked_operator_eq (replenish : gid_type → gid_type) (g : gid_type)
    (hk : 1 ≤ detail.get_log2credit_from_gid g) :
    (detail.split_credits_for_gid_locked replenish g).1.operator_eq g = true ∧
      (detail.split_credits_for_gid_locked replenish g).2.operator_eq g = true := by
  have hf := get_log2credit_eq g
  generalize hkdef : (g.id_msb_ / 2 ^ 24) % 2 ^ 5 = k at hf
  have hk32 : k < 32 := by rw [← hkdef]; exact Nat.mod_lt _ (by decide)
  rw [hf] at hk
  have hk1 : 1 ≤ k := by exact_mod_cast hk
  have hsub : ((k : Int) - 1) = ((k - 1 : Nat) : Int) := by omega
  have hne2 : ¬ ((k : Int) = 0) := by omega
  have hp : detail.split_credits_for_gid_locked replenish g =
      (detail.set_credit_split_mask_for_gid
        (detail.set_log2credit_for_gid g ((k - 1 : Nat) : Int)),
      detail.set_credit_split_mask_for_gid
        (detail.set_log2credit_for_gid (gid_type.copy g) ((k - 1 : Nat) : Int))) := by
    unfold detail.split_credits_for_gid_locked
    simp only [hf, if_neg hne2, hsub]
  rw [hp]
  constructor
  · refine operator_eq_of_bits _ g ?_ ?_
    · rfl
    intro i h64 hi
    show (detail.set_credit_split_mask_for_gid _).id_msb_.testBit i = _
    rw [testBit_set_credit_split_mask, testBit_set_log2credit g (k - 1) (by omega)]
    have h1 : ¬ (24 ≤ i ∧ i < 29) := by omega
    have h2 : ¬ i = 30 := by omega
    have h3 : ¬ i = 31 := by omega
    simp [h1, h2, h3, h64]
  · refine operator_eq_of_bits _ g ?_ ?_
    · rfl
    intro i h64 hi
    show (detail.set_credit_split_mask_for_gid _).id_msb_.testBit i = _
    rw [testBit_set_credit_split_mask, testBit_set_log2credit _ (k - 1) (by omega)]
    have h1 : ¬ (24 ≤ i ∧ i < 29) := by omega
    have h2 : ¬ i = 30 := by omega
    have h3 : ¬ i = 31 := by omega
    have h4 : ¬ i = 29 := by omega
    have hc : (gid_type.copy g).id_msb_.testBit i =
        (g.id_msb_.testBit i && decide (i < 64) && !decide (i = 29)) :=
      testBit_strip_lock g.id_msb_ i
    simp [h1, h2, h3, h4, h64, hc]

/-- When `split_credits_for_gid` returns, the lock bit of the GID was clear and
the result is the split done on the locked GID, unlocked again. -/
theorem split_credits_some (replenish : gid_type → gid_type) (fuel : Nat)
    (g : gid_type) (p : gid_type × gid_type)
    (h : detail.split_credits_for_gid replenish fuel g = some p) :
    g.is_locked = false ∧
      p = ((detail.split_credits_for_gid_locked replenish
              { g with id_msb_ := g.id_msb_ ||| 2 ^ 29 }).1.unlock,
            (detail.split_credits_for_gid_locked replenish
              { g with id_msb_ := g.id_msb_ ||| 2 ^ 29 }).2) := by
  unfold detail.split_credits_for_gid gid_type.lock at h
  cases hl : g.is_locked
  · cases fuel with
    | zero => simp [gid_type.lock_loop] at h
    | succ n =>
      rw [lock_loop_of_unlocked g hl n] at h
      simp only [Option.some.injEq] at h
      exact ⟨rfl, h.symm⟩
  · rw [lock_loop_of_locked g hl fuel] at h
    simp at h

theorem split_credits_of_unlocked (replenish : gid_type → gid_type) (fuel : Nat)
    (g : gid_type) (hl : g.is_locked = false) (hfuel : 1 ≤ fuel) :
    detail.split_credits_for_gid replenish fuel g =
      some ((detail.split_credits_for_gid_locked replenish
              { g with id_msb_ := g.id_msb_ ||| 2 ^ 29 }).1.unlock,
            (detail.split_credits_for_gid_locked replenish
              { g with id_msb_ := g.id_msb_ ||| 2 ^ 29 }).2) := by
  obtain ⟨n, rfl⟩ : ∃ n, fuel = n + 1 := ⟨fuel - 1, by omega⟩
  unfold detail.split_credits_for_gid gid_type.lock
  rw [lock_loop_of_unlocked g hl n]

/-- The outcome of a split, for the split done under the lock and for the whole
call alike. -/
theorem split_props (replenish : gid_type → gid_type) (g : gid_type)
    (hhc : detail.has_credits g = true) (hk : 1 ≤ detail.get_log2credit_from_gid g)
    (p : gid_type × gid_type)
    (hp : p = detail.split_credits_for_gid_locked replenish g ∨
      ∃ fuel, detail.split_credits_for_gid replenish fuel g = some p) :
    detail.get_credit_from_gid p.1 + detail.get_credit_from_gid p.2 =
        detail.get_credit_from_gid g ∧
      detail.get_log2credit_from_gid p.1 = detail.get_log2credit_from_gid g - 1 ∧
      detail.get_log2credit_from_gid p.2 = detail.get_log2credit_from_gid g - 1 ∧
      detail.gid_was_split p.1 = true ∧ detail.gid_was_split p.2 = true ∧
      detail.has_credits p.1 = true ∧ detail.has_credits p.2 = true ∧
      p.1.operator_eq g = true ∧ p.2.operator_eq g = true := by
  rcases hp with rfl | ⟨fuel, hsome⟩
  · have h := split_locked_props replenish g hhc hk
    have he := split_locked_operator_eq replenish g hk
    exact ⟨h.1, h.2.1, h.2.2.1, h.2.2.2.1, h.2.2.2.2.1, h.2.2.2.2.2.1, h.2.2.2.2.2.2.1,
      he.1, he.2⟩
  · obtain ⟨hl, rfl⟩ := split_credits_some replenish fuel g p hsome
    have hbit : ∀ i, i ≠ 29 →
        (g.id_msb_ ||| 2 ^ 29).testBit i = g.id_msb_.testBit i := by
      intro i hi
      rw [Nat.testBit_or, Nat.testBit_two_pow]
      have : ¬ 29 = i := fun h => hi h.symm
      simp [this]
    have hfl : detail.get_log2credit_from_gid { g with id_msb_ := g.id_msb_ ||| 2 ^ 29 } =
        detail.get_log2credit_from_gid g :=
      get_log2credit_congr _ _ (fun i h1 h2 => hbit i (by omega))
    have hcl : detail.get_credit_from_gid { g with id_msb_ := g.id_msb_ ||| 2 ^ 29 } =
        detail.get_credit_from_gid g :=
      get_credit_congr _ _ (fun i h1 h2 => hbit i (by omega)) (hbit 30 (by omega))
    have hhl : detail.has_credits { g with id_msb_ := g.id_msb_ ||| 2 ^ 29 } = true := by
      rw [has_credits_eq_testBit]
      show (g.id_msb_ ||| 2 ^ 29).testBit 30 = true
      rw [hbit 30 (by omega), ← has_credits_eq_testBit, hhc]
    have h := split_locked_props replenish _ hhl (by rw [hfl]; exact hk)
    have he := split_locked_operator_eq replenish
      { g with id_msb_ := g.id_msb_ ||| 2 ^ 29 } (by rw [hfl]; exact hk)
    have hgl : gid_type.operator_eq { g with id_msb_ := g.id_msb_ ||| 2 ^ 29 } g = true := by
      refine operator_eq_of_bits _ g ?_ (fun i _ hi => hbit i (by omega))
      rfl
    have hu : ∀ (x : gid_type) (i : Nat), i < 64 → i ≠ 29 →
        x.unlock.id_msb_.testBit i = x.id_msb_.testBit i := by
      intro x i h64 hi
      show x.relinquish_lock.id_msb_.testBit i = _
      rw [testBit_relinquish_lock]
      simp [h64, hi]
    have hfu : ∀ x : gid_type, detail.get_log2credit_from_gid x.unlock =
        detail.get_log2credit_from_gid x :=
      fun x => get_log2credit_congr _ _ (fun i h1 h2 => hu x i (by omega) (by omega))
    have hcu : ∀ x : gid_type, detail.get_credit_from_gid x.unlock =
        detail.get_credit_from_gid x :=
      fun x => get_credit_congr _ _ (fun i h1 h2 => hu x i (by omega) (by omega))
        (hu x 30 (by omega) (by omega))
    have htrans : ∀ x y z : gid_type, x.operator_eq y = true → y.operator_eq z = true →
        x.operator_eq z = true := by
      intro x y z h1 h2
      rw [operator_eq_iff] at h1 h2 ⊢
      exact ⟨h1.1.trans h2.1, h1.2.trans h2.2⟩
    refine ⟨?_, ?_, ?_, ?_, h.2.2.2.2.1, ?_, h.2.2.2.2.2.2.1, ?_, htrans _ _ _ he.2 hgl⟩
    · show detail.get_credit_from_gid (gid_type.unlock _) + _ = _
      rw [hcu, ← hcl]
      exact h.1
    · show detail.get_log2credit_from_gid (gid_type.unlock _) = _
      rw [hfu, ← hfl]
      exact h.2.1
    · rw [← hfl]
      exact h.2.2.1
    · show detail.gid_was_split (gid_type.unlock _) = true
      rw [gid_was_split_eq_testBit, hu _ 31 (by omega) (by omega), ← gid_was_split_eq_testBit]
      exact h.2.2.2.1
    · show detail.has_credits (gid_type.unlock _) = true
      rw [has_credits_eq_testBit, hu _ 30 (by omega) (by omega), ← has_credits_eq_testBit]
      exact h.2.2.2.2.2.1
    · show gid_type.operator_eq (gid_type.unlock _) g = true
      refine htrans _ _ _ (operator_eq_of_bits _ _ ?_ ?_) (htrans _ _ _ he.1 hgl)
      · rfl
      · intro i h64 hi
        exact hu _ i h64 (by omega)

/-! ## Facts about locality conversion -/

/-- Stripping the lock bit of a 64-bit word leaves bits 32..63 as they are. -/
theorem strip_lock_shiftRight_32 (x : Nat) (hx : x < 2 ^ 64) :
    detail.strip_lock_from_gid x >>> 32 = x >>> 32 := by
  apply Nat.eq_of_testBit_eq
  intro j
  rw [Nat.testBit_shiftRight, Nat.testBit_shiftRight, testBit_strip_lock]
  by_cases h64 : 32 + j < 64
  · have : ¬ 32 + j = 29 := by omega
    simp [h64, this]
  · have hlt : x < 2 ^ (32 + j) :=
      Nat.lt_of_lt_of_le hx (Nat.pow_le_pow_right (by omega) (by omega))
    simp [h64, Nat.testBit_lt_two_pow hlt]

theorem get_locality_id_get_gid (N : Nat) (hN : N < 2 ^ 32) :
    get_locality_id_from_gid (get_gid_from_locality_id N).get_msb = N := by
  have h32 : gid_type.locality_id_shift = 32 := rfl
  rw [get_gid_from_locality_id, get_locality_id_from_gid, gid_type.mk2, gid_type.get_msb, h32]
  dsimp only
  rw [strip_lock_shiftRight_32 _ (Nat.mod_lt _ (by omega)), Nat.shiftRight_eq_div_pow,
    Nat.shiftLeft_eq]
  omega

/-! ## Claims -/

/-- C1: `a == b` holds exactly when the stripped most significant words and the
least significant words are equal; `a != b` is its negation; the internal bits
mask is `0xFFC00000` and stripping clears exactly bits 22..31 of the 64-bit
word. -/
theorem C1_operator_eq_iff_stripped (a b : gid_type) :
    (a.operator_eq b = true ↔
      detail.strip_internal_bits_from_gid a.id_msb_ =
          detail.strip_internal_bits_from_gid b.id_msb_ ∧
        a.id_lsb_ = b.id_lsb_) ∧
    a.operator_ne b = !a.operator_eq b ∧
    gid_type.internal_bits_mask = 0xFFC00000 ∧
    gid_type.internal_bits_mask =
      (gid_type.is_migratable ||| gid_type.dont_cache_mask ||| gid_type.credit_mask |||
        gid_type.is_locked_mask ||| gid_type.has_credits_mask |||
        gid_type.was_split_mask) ∧
    ∀ msb i : Nat,
      (detail.strip_internal_bits_from_gid msb).testBit i =
        (msb.testBit i && decide (i < 64) && !decide (22 ≤ i ∧ i ≤ 31)) :=
  ⟨operator_eq_iff a b, rfl, internal_bits_mask_val, by decide, testBit_strip_internal⟩

/-- C2: the stripped copy of a GID compares equal to the GID under `operator==`
and has the same hash, whatever the hash function of 64-bit words is. -/
theorem C2_stripped_gid_eq_and_hash (h : Nat → Nat) (g : gid_type) :
    (detail.get_stripped_gid g).operator_eq g = true ∧
      hash_gid_type h g = hash_gid_type h (detail.get_stripped_gid g) := by
  constructor
  · rw [operator_eq_iff]
    exact ⟨strip_internal_strip_lock_strip _, rfl⟩
  · simp only [hash_gid_type, detail.get_stripped_gid, gid_type.mk2, gid_type.get_msb,
      gid_type.get_lsb, strip_internal_strip_lock_strip]

/-- C3: for a mask `m` contained in the internal bits, setting the bits of `m`
in `a.msb` or clearing them changes none of `a == b`, `a < b`, `b < a`,
`a <= b`, `b <= a`, nor the hash of `a`. -/
theorem C3_internal_bits_do_not_matter (h : Nat → Nat) (a b : gid_type) (m : Nat)
    (hm : m &&& not64 gid_type.internal_bits_mask = 0) :
    ∀ a2 : gid_type,
      (a2 = a.set_msb (a.get_msb ||| m) ∨ a2 = a.set_msb (a.get_msb &&& not64 m)) →
      a2.operator_eq b = a.operator_eq b ∧
      a2.operator_lt b = a.operator_lt b ∧
      b.operator_lt a2 = b.operator_lt a ∧
      a2.operator_le b = a.operator_le b ∧
      b.operator_le a2 = b.operator_le a ∧
      hash_gid_type h a2 = hash_gid_type h a := by
  intro a2 ha2
  have hs : detail.strip_internal_bits_from_gid a2.id_msb_ =
      detail.strip_internal_bits_from_gid a.id_msb_ ∧ a2.id_lsb_ = a.id_lsb_ := by
    rcases ha2 with rfl | rfl
    · exact ⟨strip_internal_or_mask _ _ hm, rfl⟩
    · exact ⟨strip_internal_and_not_mask _ _ hm, rfl⟩
  simp only [gid_type.operator_eq, gid_type.operator_lt, gid_type.operator_le,
    hash_gid_type, gid_type.get_msb, gid_type.get_lsb, hs.1, hs.2, and_self]

/-- C3 at `a = (0, 5)`, `b = (1, 2)` and the mask of the `has_credits` bit. -/
theorem C3_internal_bits_do_not_matter_witness :
    (0x40000000 &&& not64 gid_type.internal_bits_mask = 0) ∧
      gid_type.operator_lt ⟨0x40000000, 5⟩ ⟨1, 2⟩ = gid_type.operator_lt ⟨0, 5⟩ ⟨1, 2⟩ :=
  ⟨by decide,
    (C3_internal_bits_do_not_matter (fun x => x) ⟨0, 5⟩ ⟨1, 2⟩ 0x40000000 (by decide)
      ⟨0x40000000, 5⟩ (Or.inl (by decide))).2.1⟩


/-- C4: GIDs that compare equal have equal hashes and neither is less than the
other, so a container holding `a` (looked up by the ordering or by hash and
equality) reports `b` as present; this covers `a = (0, 5)` and `b = a` with
`has_credits = 1` and `log2_credit = 10`. -/
theorem C4_equal_gids_are_one_key (h : Nat → Nat) (a b : gid_type)
    (hab : a.operator_eq b = true) :
    hash_gid_type h a = hash_gid_type h b ∧
    a.operator_lt b = false ∧ b.operator_lt a = false ∧
    ∀ keys : List gid_type, a ∈ keys →
      keys.any (fun k => !k.operator_lt b && !b.operator_lt k) = true ∧
      keys.any (fun k => decide (hash_gid_type h k = hash_gid_type h b) &&
        k.operator_eq b) = true := by
  have he := (operator_eq_iff a b).mp hab
  have hh : hash_gid_type h a = hash_gid_type h b := by
    simp only [hash_gid_type, gid_type.get_msb, gid_type.get_lsb, he.1, he.2]
  have h1 : a.operator_lt b = false := by
    rw [Bool.eq_false_iff]
    intro hlt
    rcases (operator_lt_iff_signed a b).mp hlt with hlt | hlt
    · rw [he.1] at hlt
      exact lt_irrefl _ hlt
    · omega
  have h2 : b.operator_lt a = false := by
    rw [Bool.eq_false_iff]
    intro hlt
    rcases (operator_lt_iff_signed b a).mp hlt with hlt | hlt
    · rw [he.1] at hlt
      exact lt_irrefl _ hlt
    · omega
  refine ⟨hh, h1, h2, fun keys hk => ⟨?_, ?_⟩⟩
  · exact List.any_eq_true.mpr ⟨a, hk, by simp [h1, h2]⟩
  · exact List.any_eq_true.mpr ⟨a, hk, by simp [hh, hab]⟩

/-- C4 at `a = (0, 5)` and `b = (0x4A000000, 5)`: `b` is `a` with `has_credits`
set and `log2_credit = 10`. -/
theorem C4_equal_gids_are_one_key_witness :
    gid_type.operator_eq ⟨0, 5⟩ ⟨0x4A000000, 5⟩ = true ∧
    (0x4A000000 : Nat) = (0 ||| gid_type.has_credits_mask ||| (10 <<< gid_type.credit_shift)) ∧
    hash_gid_type (fun x => x) ⟨0, 5⟩ = hash_gid_type (fun x => x) ⟨0x4A000000, 5⟩ ∧
    gid_type.operator_lt ⟨0, 5⟩ ⟨0x4A000000, 5⟩ = false ∧
    gid_type.operator_lt ⟨0x4A000000, 5⟩ ⟨0, 5⟩ = false :=
  have t := C4_equal_gids_are_one_key (fun x => x) ⟨0, 5⟩ ⟨0x4A000000, 5⟩ (by decide)
  ⟨by decide, by decide, t.1, t.2.1, t.2.2.1⟩

/-- C5 as stated fails: with `a.msb = 2^63` and `b.msb = 2^32` the code gives
`a < b`, while as unsigned words `2^63 > 2^32`. -/
theorem C5_unsigned_order_counterexample :
    ¬ (gid_type.operator_lt ⟨2 ^ 63, 0⟩ ⟨2 ^ 32, 0⟩ = true ↔
        (detail.strip_internal_bits_from_gid (2 ^ 63) <
            detail.strip_internal_bits_from_gid (2 ^ 32) ∨
          (detail.strip_internal_bits_from_gid (2 ^ 63) =
              detail.strip_internal_bits_from_gid (2 ^ 32) ∧
            (0 : Nat) < 0))) := by
  decide

/-- C5 amended: `a < b` holds exactly when the pair of the stripped most
significant word read as a signed 64-bit integer and the unsigned least
significant word is lexicographically smaller; when bit 63 of both most
significant words is equal this is the unsigned lexicographic order, and when
only `a.msb` has bit 63 set then `a < b`. -/
theorem C5_operator_lt_signed_msb (a b : gid_type) :
    (a.operator_lt b = true ↔
      to_int64 (detail.strip_internal_bits_from_gid a.id_msb_) <
          to_int64 (detail.strip_internal_bits_from_gid b.id_msb_) ∨
        (detail.strip_internal_bits_from_gid a.id_msb_ =
            detail.strip_internal_bits_from_gid b.id_msb_ ∧
          a.id_lsb_ < b.id_lsb_)) ∧
    (a.id_msb_.testBit 63 = b.id_msb_.testBit 63 →
      (a.operator_lt b = true ↔
        detail.strip_internal_bits_from_gid a.id_msb_ <
            detail.strip_internal_bits_from_gid b.id_msb_ ∨
          (detail.strip_internal_bits_from_gid a.id_msb_ =
              detail.strip_internal_bits_from_gid b.id_msb_ ∧
            a.id_lsb_ < b.id_lsb_))) ∧
    (a.id_msb_.testBit 63 = true → b.id_msb_.testBit 63 = false →
      a.operator_lt b = true) := by
  refine ⟨operator_lt_iff_signed a b, fun hs => ?_, fun ha hb => ?_⟩
  · rw [operator_lt_iff_signed,
      to_int64_lt_iff_of_same_sign (strip_internal_lt _) (strip_internal_lt _)
        (by rw [testBit_63_strip_internal, testBit_63_strip_internal, hs])]
  · rw [operator_lt_iff_signed]
    exact Or.inl (to_int64_lt_of_sign (strip_internal_lt _) (strip_internal_lt _)
      (by rw [testBit_63_strip_internal, ha]) (by rw [testBit_63_strip_internal, hb]))

/-- C5 amended, at `a = (2^63, 0)` and `b = (2^32, 0)`: only `a.msb` has bit 63
set, and `a < b`. -/
theorem C5_operator_lt_signed_msb_witness :
    (2 ^ 63 : Nat).testBit 63 = true ∧ (2 ^ 32 : Nat).testBit 63 = false ∧
      gid_type.operator_lt ⟨2 ^ 63, 0⟩ ⟨2 ^ 32, 0⟩ = true :=
  ⟨by decide, by decide,
    (C5_operator_lt_signed_msb ⟨2 ^ 63, 0⟩ ⟨2 ^ 32, 0⟩).2.2 (by decide) (by decide)⟩


/-- C6: for a power of two `c = 2^k` with `1 <= c <= 2^31`, the call
`set_credit_for_gid(g, c)` returns (the loop of `log2` ends within 64 rounds)
and afterwards `get_credit_from_gid(g) = c`, `has_credits(g)` is true and the
credit field holds `k = log2(c)`. -/
theorem C6_set_credit_then_get_credit (g : gid_type) (c : Int) (k fuel : Nat)
    (hk : k ≤ 31) (hc : c = 2 ^ k) (hfuel : 64 ≤ fuel) :
    ∃ g2 : gid_type,
      detail.set_credit_for_gid fuel g c = some g2 ∧
      detail.get_credit_from_gid g2 = c ∧
      detail.has_credits g2 = true ∧
      detail.get_log2credit_from_gid g2 = (k : Int) ∧
      (g2.id_msb_ >>> 24) % 32 = k := by
  subst hc
  have hne : (2 : Int) ^ k ≠ 0 := by positivity
  have hk32 : k < 32 := by omega
  refine ⟨detail.set_log2credit_for_gid g (k : Int), ?_, ?_, ?_, ?_, ?_⟩
  · unfold detail.set_credit_for_gid
    rw [if_pos hne, log2_two_pow k fuel (by omega)]
  · unfold detail.get_credit_from_gid
    rw [has_credits_set_log2credit g k hk32, if_pos rfl,
      get_log2credit_set_log2credit g k hk32, power2_natCast k (by omega)]
  · exact has_credits_set_log2credit g k hk32
  · exact get_log2credit_set_log2credit g k hk32
  · have h := get_log2credit_set_log2credit g k hk32
    unfold detail.get_log2credit_from_gid gid_type.get_msb at h
    have h5 : gid_type.credit_base_mask = 2 ^ 5 - 1 := by decide
    have h24 : gid_type.credit_shift = 24 := rfl
    rw [h5, h24, Nat.and_pow_two_sub_one_eq_mod] at h
    exact_mod_cast h

/-- C6 at `g = (0, 5)` and `c = 16 = 2^4`. -/
theorem C6_set_credit_then_get_credit_witness :
    ∃ g2 : gid_type,
      detail.set_credit_for_gid 64 ⟨0, 5⟩ 16 = some g2 ∧
      detail.get_credit_from_gid g2 = 16 ∧
      detail.has_credits g2 = true ∧
      detail.get_log2credit_from_gid g2 = ((4 : Nat) : Int) ∧
      (g2.id_msb_ >>> 24) % 32 = 4 :=
  C6_set_credit_then_get_credit ⟨0, 5⟩ 16 4 64 (by decide) (by decide) (by decide)

/-- C7: `set_credit_for_gid(g, 0)` returns, and afterwards `has_credits(g)` is
false, the credit field is 0 and `get_credit_from_gid(g) = 0`. -/
theorem C7_set_credit_zero (g : gid_type) (fuel : Nat) :
    ∃ g2 : gid_type,
      detail.set_credit_for_gid fuel g 0 = some g2 ∧
      detail.has_credits g2 = false ∧
      detail.get_log2credit_from_gid g2 = 0 ∧
      (g2.id_msb_ >>> 24) % 32 = 0 ∧
      detail.get_credit_from_gid g2 = 0 := by
  have hhc : detail.has_credits (detail.strip_credits_from_gid_ref g) = false := by
    rw [has_credits_eq_testBit]
    show (detail.strip_credits_from_gid g.id_msb_).testBit 30 = false
    rw [testBit_strip_credits]
    simp
  have hfield : ((detail.strip_credits_from_gid g.id_msb_) >>> 24) &&& (2 ^ 5 - 1) = 0 := by
    apply Nat.eq_of_testBit_eq
    intro j
    rw [Nat.testBit_and, Nat.testBit_shiftRight, Nat.testBit_two_pow_sub_one,
      testBit_strip_credits, Nat.zero_testBit]
    by_cases hj : j < 5
    · have : 24 ≤ 24 + j ∧ 24 + j < 29 := by omega
      simp [this]
    · simp [hj]
  refine ⟨detail.strip_credits_from_gid_ref g, ?_, hhc, ?_, ?_, ?_⟩
  · simp [detail.set_credit_for_gid]
  · unfold detail.get_log2credit_from_gid
    have h5 : gid_type.credit_base_mask = 2 ^ 5 - 1 := by decide
    rw [h5]
    exact_mod_cast hfield
  · rw [Nat.and_pow_two_sub_one_eq_mod] at hfield
    exact hfield
  · unfold detail.get_credit_from_gid
    rw [hhc]
    rfl

/-- C8: `get_credit_from_gid(g)` is 0 when the `has_credits` bit is clear and
otherwise `2^k` for `k` the value of bits 24..28 of the most significant word;
so it is 0 or a power of two from `2^0` to `2^31`, and it is 0 exactly when
`has_credits` is clear. -/
theorem C8_get_credit_value (g : gid_type) :
    (detail.has_credits g = false → detail.get_credit_from_gid g = 0) ∧
    (detail.has_credits g = true →
      detail.get_credit_from_gid g = 2 ^ ((g.id_msb_ / 2 ^ 24) % 2 ^ 5)) ∧
    (detail.get_credit_from_gid g = 0 ∨
      ∃ k : Nat, k ≤ 31 ∧ detail.get_credit_from_gid g = 2 ^ k) ∧
    (detail.get_credit_from_gid g = 0 ↔ detail.has_credits g = false) ∧
    (detail.has_credits g = (decide (g.id_msb_ / 2 ^ 30 % 2 = 1))) := by
  have hfield : detail.get_log2credit_from_gid g =
      (((g.id_msb_ / 2 ^ 24) % 2 ^ 5 : Nat) : Int) := by
    unfold detail.get_log2credit_from_gid gid_type.get_msb
    have h5 : gid_type.credit_base_mask = 2 ^ 5 - 1 := by decide
    have h24 : gid_type.credit_shift = 24 := rfl
    rw [h5, h24, Nat.and_pow_two_sub_one_eq_mod, Nat.shiftRight_eq_div_pow]
  have hklt : (g.id_msb_ / 2 ^ 24) % 2 ^ 5 < 32 := Nat.mod_lt _ (by decide)
  have hval : detail.has_credits g = true →
      detail.get_credit_from_gid g = 2 ^ ((g.id_msb_ / 2 ^ 24) % 2 ^ 5) := by
    intro h
    unfold detail.get_credit_from_gid
    rw [h, if_pos rfl, hfield, power2_natCast _ (by omega)]
  have hzero : detail.has_credits g = false → detail.get_credit_from_gid g = 0 := by
    intro h
    unfold detail.get_credit_from_gid
    rw [h]
    rfl
  refine ⟨hzero, hval, ?_, ?_, ?_⟩
  · cases h : detail.has_credits g
    · exact Or.inl (hzero h)
    · exact Or.inr ⟨_, by omega, hval h⟩
  · constructor
    · intro h0
      cases h : detail.has_credits g
      · rfl
      · rw [hval h] at h0
        have : (2 : Int) ^ ((g.id_msb_ / 2 ^ 24) % 2 ^ 5) ≠ 0 := by positivity
        exact absurd h0 this
    · exact hzero
  · rw [has_credits_eq_testBit, Nat.testBit_to_div_mod]


/-- C9: for a GID with `has_credits` set and `log2_credit >= 1`, a split (the
part done under the lock, or the whole call `split_credits_for_gid`) leaves the
GID and returns a copy such that the two credits add up to the credit before,
both carry `log2_credit` one less than before, both have `was_split` and
`has_credits` set, and both still compare equal to the GID before; the whole
call returns whenever the lock bit of the GID is clear. -/
theorem C9_split_credits (replenish : gid_type → gid_type) (g : gid_type)
    (hhc : detail.has_credits g = true) (hk : 1 ≤ detail.get_log2credit_from_gid g) :
    (∀ p : gid_type × gid_type,
      (p = detail.split_credits_for_gid_locked replenish g ∨
        ∃ fuel, detail.split_credits_for_gid replenish fuel g = some p) →
      detail.get_credit_from_gid p.1 + detail.get_credit_from_gid p.2 =
          detail.get_credit_from_gid g ∧
        detail.get_log2credit_from_gid p.1 = detail.get_log2credit_from_gid g - 1 ∧
        detail.get_log2credit_from_gid p.2 = detail.get_log2credit_from_gid g - 1 ∧
        detail.gid_was_split p.1 = true ∧ detail.gid_was_split p.2 = true ∧
        detail.has_credits p.1 = true ∧ detail.has_credits p.2 = true ∧
        p.1.operator_eq g = true ∧ p.2.operator_eq g = true) ∧
    (g.is_locked = false → ∀ fuel, 1 ≤ fuel →
      ∃ p, detail.split_credits_for_gid replenish fuel g = some p) :=
  ⟨fun p hp => split_props replenish g hhc hk p hp,
    fun hl fuel hfuel => ⟨_, split_credits_of_unlocked replenish fuel g hl hfuel⟩⟩

/-- C9 at `g = (0x44000000, 5)`, a GID with credit 16: the split gives 8 and 8. -/
theorem C9_split_credits_witness :
    detail.has_credits ⟨0x44000000, 5⟩ = true ∧
    1 ≤ detail.get_log2credit_from_gid ⟨0x44000000, 5⟩ ∧
    detail.get_credit_from_gid ⟨0x44000000, 5⟩ = 16 ∧
    detail.split_credits_for_gid id 1 ⟨0x44000000, 5⟩ =
      some (⟨0xC3000000, 5⟩, ⟨0xC3000000, 5⟩) ∧
    detail.get_credit_from_gid ⟨0xC3000000, 5⟩ = 8 ∧
    detail.get_credit_from_gid ⟨0xC3000000, 5⟩ + detail.get_credit_from_gid ⟨0xC3000000, 5⟩ =
      detail.get_credit_from_gid ⟨0x44000000, 5⟩ :=
  ⟨by decide, by decide, by decide, by decide, by decide,
    ((C9_split_credits id ⟨0x44000000, 5⟩ (by decide) (by decide)).1
      (⟨0xC3000000, 5⟩, ⟨0xC3000000, 5⟩) (Or.inr ⟨1, by decide⟩)).1⟩

/-- C10: for every 32-bit locality id `N`, the locality id of
`get_gid_from_locality_id(N)` is `N` and that GID has `lsb = 0`; for `N = 0`
the GID is `(0x0000000100000000, 0)` and its locality id is 0. -/
theorem C10_locality_id_round_trip (N : Nat) (hN : N < 2 ^ 32) :
    get_locality_id_from_gid_ref (get_gid_from_locality_id N) = N ∧
    get_locality_id_from_gid (get_gid_from_locality_id N).get_msb = N ∧
    (get_gid_from_locality_id N).get_lsb = 0 ∧
    get_gid_from_locality_id 0 = ⟨0x0000000100000000, 0⟩ ∧
    get_locality_id_from_gid_ref ⟨0x0000000100000000, 0⟩ = 0 :=
  ⟨get_locality_id_get_gid N hN, get_locality_id_get_gid N hN, rfl, by decide, by decide⟩

/-- C10 at the largest locality id, `N = 0xFFFFFFFF`. -/
theorem C10_locality_id_round_trip_witness :
    (0xFFFFFFFF : Nat) < 2 ^ 32 ∧
      get_locality_id_from_gid_ref (get_gid_from_locality_id 0xFFFFFFFF) = 0xFFFFFFFF :=
  ⟨by decide, (C10_locality_id_round_trip 0xFFFFFFFF (by decide)).1⟩


/-! ## Facts about locality GIDs -/

theorem get_gid_from_locality_id_msb (N : Nat) :
    (get_gid_from_locality_id N).id_msb_ =
      detail.strip_lock_from_gid (((N % 2 ^ 32 + 1) <<< 32) % 2 ^ 64) := by
  have h32 : gid_type.locality_id_shift = 32 := rfl
  rw [get_gid_from_locality_id, gid_type.mk2, h32]

theorem get_gid_from_locality_id_lsb (N : Nat) :
    (get_gid_from_locality_id N).id_lsb_ = 0 := by
  rw [get_gid_from_locality_id, gid_type.mk2]

/-- A word made of bits 32..63 only has no lock bit to strip. -/
theorem strip_lock_shiftLeft_32 (y : Nat) (hy : y < 2 ^ 32) :
    detail.strip_lock_from_gid (y <<< 32) = y <<< 32 := by
  apply Nat.eq_of_testBit_eq
  intro i
  rw [testBit_strip_lock, Nat.testBit_shiftLeft]
  by_cases h1 : i ≥ 32
  · by_cases h2 : i < 64
    · have : ¬ i = 29 := by omega
      simp [h1, h2, this]
    · have hlt : y < 2 ^ (i - 32) :=
        Nat.lt_of_lt_of_le hy (Nat.pow_le_pow_right (by omega) (by omega))
      simp [h1, h2, Nat.testBit_lt_two_pow hlt]
  · simp [h1]

/-- The most significant word of the GID of a locality below `2^32 - 1`. -/
theorem get_gid_from_locality_id_msb_of_lt (N : Nat) (hN : N < 2 ^ 32 - 1) :
    (get_gid_from_locality_id N).id_msb_ = (N + 1) * 2 ^ 32 := by
  rw [get_gid_from_locality_id_msb]
  have h1 : ((N % 2 ^ 32 + 1) <<< 32) % 2 ^ 64 = (N + 1) <<< 32 := by
    rw [Nat.shiftLeft_eq, Nat.shiftLeft_eq]
    omega
  rw [h1, strip_lock_shiftLeft_32 _ (by omega), Nat.shiftLeft_eq]

/-- Bits of the word made of bits 32..63 of `msb`. -/
theorem testBit_locality_part (msb i : Nat) :
    (((msb >>> 32) % 2 ^ 32) <<< 32).testBit i =
      (decide (32 ≤ i ∧ i < 64) && msb.testBit i) := by
  rw [Nat.testBit_shiftLeft, Nat.testBit_mod_two_pow, Nat.testBit_shiftRight]
  by_cases h1 : 32 ≤ i
  · have h2 : 32 + (i - 32) = i := by omega
    by_cases h3 : i < 64
    · have h4 : i - 32 < 32 := by omega
      simp [h1, h2, h3, h4]
    · have h4 : ¬ i - 32 < 32 := by omega
      simp [h1, h3, h4]
  · have h2 : ¬ i ≥ 32 := h1
    simp [h1, h2]

/-- The GID of the locality of a GID keeps bits 32..63 of the most significant
word and nothing else. -/
theorem get_locality_from_gid_val (g : gid_type) :
    get_locality_from_gid g =
      { id_msb_ := ((g.id_msb_ >>> 32) % 2 ^ 32) <<< 32, id_lsb_ := 0 } := by
  have h32 : gid_type.locality_id_shift = 32 := rfl
  have hmsb : (get_locality_from_gid g).id_msb_ = ((g.id_msb_ >>> 32) % 2 ^ 32) <<< 32 := by
    rw [get_locality_from_gid, get_gid_from_locality_id_msb, get_locality_id_from_gid_ref,
      get_locality_id_from_gid, gid_type.get_msb, h32]
    have hlt : (g.id_msb_ >>> 32) % 2 ^ 32 < 2 ^ 32 := Nat.mod_lt _ (by omega)
    generalize (g.id_msb_ >>> 32) % 2 ^ 32 = hi at hlt ⊢
    have h1 : ((((hi + 2 ^ 32 - 1) % 2 ^ 32) % 2 ^ 32 + 1) <<< 32) % 2 ^ 64 = hi <<< 32 := by
      rw [Nat.shiftLeft_eq, Nat.shiftLeft_eq]
      omega
    rw [h1, strip_lock_shiftLeft_32 _ hlt]
  have hlsb : (get_locality_from_gid g).id_lsb_ = 0 := by
    rw [get_locality_from_gid, get_gid_from_locality_id_lsb]
  cases hg : get_locality_from_gid g with
  | mk a b =>
    rw [hg] at hmsb hlsb
    simp only at hmsb hlsb
    rw [hmsb, hlsb]

theorem operator_eq_comm (a b : gid_type) : a.operator_eq b = b.operator_eq a := by
  unfold gid_type.operator_eq
  simp only []
  rw [decide_eq_decide.mpr (eq_comm (a := to_int64 _) (b := to_int64 _)),
    decide_eq_decide.mpr (eq_comm (a := a.id_lsb_) (b := b.id_lsb_))]

theorem mod_two_pow_22_eq_zero_iff (msb : Nat) :
    msb % 2 ^ 22 = 0 ↔ ∀ i, i < 22 → msb.testBit i = false := by
  constructor
  · intro h i hi
    have h1 : (msb % 2 ^ 22).testBit i = (0 : Nat).testBit i := by rw [h]
    rw [Nat.testBit_mod_two_pow, Nat.zero_testBit] at h1
    simpa [hi] using h1
  · intro h
    apply Nat.eq_of_testBit_eq
    intro i
    rw [Nat.testBit_mod_two_pow, Nat.zero_testBit]
    by_cases hi : i < 22
    · simp [h i hi]
    · simp [hi]

theorem is_locality_iff (g : gid_type) :
    is_locality g = true ↔ g.id_lsb_ = 0 ∧ ∀ i, i < 22 → g.id_msb_.testBit i = false := by
  rw [is_locality, get_locality_from_gid_val, operator_eq_iff]
  simp only []
  constructor
  · rintro ⟨h1, h2⟩
    refine ⟨h2.symm, fun i hi => ?_⟩
    have hbit : (detail.strip_internal_bits_from_gid
        (((g.id_msb_ >>> 32) % 2 ^ 32) <<< 32)).testBit i =
        (detail.strip_internal_bits_from_gid g.id_msb_).testBit i := by rw [h1]
    rw [testBit_strip_internal, testBit_strip_internal, testBit_locality_part] at hbit
    have h32 : ¬ (32 ≤ i ∧ i < 64) := by omega
    have h64 : i < 64 := by omega
    have h22 : ¬ (22 ≤ i ∧ i ≤ 31) := by omega
    rw [decide_eq_false h32, decide_eq_true h64, decide_eq_false h22] at hbit
    simpa using hbit.symm
  · rintro ⟨h1, h2⟩
    refine ⟨?_, h1.symm⟩
    apply Nat.eq_of_testBit_eq
    intro i
    simp only [testBit_strip_internal, testBit_locality_part]
    by_cases hi : i < 22
    · have h32 : ¬ (32 ≤ i ∧ i < 64) := by omega
      simp [h2 i hi, h32]
    · by_cases h3 : 22 ≤ i ∧ i ≤ 31
      · have h32 : ¬ (32 ≤ i ∧ i < 64) := by omega
        simp [h3, h32]
      · by_cases h64 : i < 64
        · have h32 : 32 ≤ i ∧ i < 64 := by omega
          simp [h3, h32, h64]
        · have h32 : ¬ (32 ≤ i ∧ i < 64) := by omega
          simp [h32, h64]

/-- C11 as stated fails: for `N = 0xFFFFFFFF` the sum `N + 1` does not fit the
32-bit locality field, the shifted word wraps to 0 and the result is the
invalid GID `(0, 0)`. -/
theorem C11_locality_field_counterexample :
    ¬ ((get_gid_from_locality_id 0xFFFFFFFF).id_msb_ >>> 32 = 0xFFFFFFFF + 1 ∧
        (get_gid_from_locality_id 0xFFFFFFFF).id_msb_ >>> 32 ≠ 0 ∧
        get_gid_from_locality_id 0xFFFFFFFF ≠ invalid_gid) := by
  decide

/-- C11 amended: for every locality id `N < 2^32 - 1` the GID of
`get_gid_from_locality_id(N)` has `msb = (N + 1) * 2^32`, so bits 32..63 hold
`N + 1`, bits 0..31 are zero, the locality field is non-zero, the GID
converts to `true` and is not the invalid GID; for `N = 0xFFFFFFFF` the result
is the invalid GID `(0, 0)`. -/
theorem C11_locality_field_nonzero (N : Nat) (hN : N < 2 ^ 32 - 1) :
    (get_gid_from_locality_id N).id_msb_ = (N + 1) * 2 ^ 32 ∧
    (get_gid_from_locality_id N).id_msb_ >>> 32 = N + 1 ∧
    (get_gid_from_locality_id N).id_msb_ % 2 ^ 32 = 0 ∧
    (get_gid_from_locality_id N).id_msb_ >>> 32 ≠ 0 ∧
    (get_gid_from_locality_id N).operator_bool = true ∧
    get_gid_from_locality_id N ≠ invalid_gid ∧
    get_gid_from_locality_id 0xFFFFFFFF = invalid_gid := by
  have hm := get_gid_from_locality_id_msb_of_lt N hN
  have hsh : (get_gid_from_locality_id N).id_msb_ >>> 32 = N + 1 := by
    rw [hm, Nat.shiftRight_eq_div_pow]
    omega
  have hne : (get_gid_from_locality_id N).id_msb_ ≠ 0 := by
    rw [hm]
    omega
  refine ⟨hm, hsh, ?_, ?_, ?_, ?_, by decide⟩
  · rw [hm]
    omega
  · rw [hsh]
    omega
  · unfold gid_type.operator_bool
    have : (0 != (get_gid_from_locality_id N).id_msb_) = true := by
      simpa using fun h => hne h.symm
    rw [this, Bool.or_true]
  · intro h
    apply hne
    rw [h]
    rfl

/-- C11 amended, at the locality id `N = 0`. -/
theorem C11_locality_field_nonzero_witness :
    (0 : Nat) < 2 ^ 32 - 1 ∧ (get_gid_from_locality_id 0).id_msb_ >>> 32 = 0 + 1 :=
  ⟨by decide, (C11_locality_field_nonzero 0 (by decide)).2.1⟩

/-- C12: `is_locality(g)` is the comparison of `g` with the GID of its
locality; it is true exactly when `g.lsb = 0` and bits 0..21 of `g.msb` are all
zero, whatever the internal bits and the locality field are. -/
theorem C12_is_locality_iff (g : gid_type) :
    is_locality g =
      g.operator_eq (get_gid_from_locality_id (get_locality_id_from_gid_ref g)) ∧
    (is_locality g = true ↔ g.id_lsb_ = 0 ∧ ∀ i, i < 22 → g.id_msb_.testBit i = false) ∧
    (is_locality g = true ↔ g.id_lsb_ = 0 ∧ g.id_msb_ % 2 ^ 22 = 0) ∧
    (∀ g2 : gid_type, g2.id_lsb_ = g.id_lsb_ → g2.id_msb_ % 2 ^ 22 = g.id_msb_ % 2 ^ 22 →
      is_locality g2 = is_locality g) := by
  have h2 : is_locality g = true ↔ g.id_lsb_ = 0 ∧ g.id_msb_ % 2 ^ 22 = 0 := by
    rw [is_locality_iff, mod_two_pow_22_eq_zero_iff]
  refine ⟨?_, is_locality_iff g, h2, ?_⟩
  · rw [is_locality, get_locality_from_gid, operator_eq_comm]
  · intro g2 hl hm
    have h3 : is_locality g2 = true ↔ g2.id_lsb_ = 0 ∧ g2.id_msb_ % 2 ^ 22 = 0 := by
      rw [is_locality_iff, mod_two_pow_22_eq_zero_iff]
    rw [Bool.eq_iff_iff, h2, h3, hl, hm]

/-! ## Facts about the component type -/

theorem testBit_component_type_mask (i : Nat) :
    gid_type.component_type_mask.testBit i = decide (1 ≤ i ∧ i ≤ 20) := by
  have h : gid_type.component_type_mask = (2 ^ 20 - 1) <<< 1 := by decide
  rw [h, Nat.testBit_shiftLeft, Nat.testBit_two_pow_sub_one]
  by_cases h1 : 1 ≤ i <;> by_cases h2 : i ≤ 20 <;> simp [h1, h2] <;> omega

theorem replace_component_type_msb (g : gid_type) (t : Nat) (ht : t < 2 ^ 20) :
    (replace_component_type g t).id_msb_ =
      detail.strip_lock_from_gid
        ((g.id_msb_ &&& not64 gid_type.component_type_mask) |||
          ((t <<< 1) &&& gid_type.component_type_mask)) := by
  have h1 : gid_type.component_type_shift = 1 := rfl
  have h2 : ((t % 2 ^ 32) <<< 1) % 2 ^ 64 = t <<< 1 := by
    rw [Nat.shiftLeft_eq, Nat.shiftLeft_eq]
    omega
  rw [replace_component_type, gid_type.mk2, gid_type.get_msb, h1, h2]

theorem testBit_replace_component_type (g : gid_type) (t : Nat) (ht : t < 2 ^ 20)
    (i : Nat) :
    (replace_component_type g t).id_msb_.testBit i =
      if 1 ≤ i ∧ i ≤ 20 then t.testBit (i - 1)
      else (g.id_msb_.testBit i && decide (i < 64) && !decide (i = 29)) := by
  rw [replace_component_type_msb g t ht, testBit_strip_lock, Nat.testBit_or,
    Nat.testBit_and, Nat.testBit_and, testBit_not64, testBit_component_type_mask,
    Nat.testBit_shiftLeft]
  by_cases h1 : 1 ≤ i ∧ i ≤ 20
  · have h2 : i ≥ 1 := h1.1
    have h3 : i < 64 := by omega
    have h4 : ¬ i = 29 := by omega
    simp [h1, h2, h3, h4]
  · by_cases h3 : i < 64 <;> simp [h1, h3]

theorem get_component_type_replace (g : gid_type) (t : Nat) (ht : t < 2 ^ 20) :
    detail.get_component_type_from_gid (replace_component_type g t).id_msb_ = t := by
  have h1 : gid_type.component_type_shift = 1 := rfl
  have h2 : gid_type.component_type_base_mask = 2 ^ 20 - 1 := by decide
  have h3 : ((replace_component_type g t).id_msb_ >>> 1) &&& (2 ^ 20 - 1) = t := by
    apply Nat.eq_of_testBit_eq
    intro j
    rw [Nat.testBit_and, Nat.testBit_shiftRight, Nat.testBit_two_pow_sub_one,
      testBit_replace_component_type g t ht]
    by_cases hj : j < 20
    · have : 1 ≤ 1 + j ∧ 1 + j ≤ 20 := by omega
      simp [this, hj]
    · have hlt : t < 2 ^ j :=
        Nat.lt_of_lt_of_le ht (Nat.pow_le_pow_right (by omega) (by omega))
      simp [hj, Nat.testBit_lt_two_pow hlt]
  rw [detail.get_component_type_from_gid, h1, h2, h3]
  omega

/-- C13: for a GID with `dynamically_assigned = 0` and a component type
`t < 2^20`, `replace_component_type(g, t)` keeps `lsb`, puts `t` into bits
1..20 of `msb` and keeps every other bit of the 64-bit `msb` except the lock
bit, which is cleared; `get_component_type_from_gid` of the new `msb` is `t`
and `dynamically_assigned` is still 0; for `g = (0, 42)` and `t = 7` the new
`msb` is `0x0E`. -/
theorem C13_replace_component_type (g : gid_type) (t : Nat)
    (hd : g.id_msb_.testBit 0 = false) (ht : t < 2 ^ 20) :
    (replace_component_type g t).id_lsb_ = g.id_lsb_ ∧
    (∀ i, (replace_component_type g t).id_msb_.testBit i =
      if 1 ≤ i ∧ i ≤ 20 then t.testBit (i - 1)
      else (g.id_msb_.testBit i && decide (i < 64) && !decide (i = 29))) ∧
    ((replace_component_type g t).id_msb_ >>> 1) % 2 ^ 20 = t ∧
    detail.get_component_type_from_gid (replace_component_type g t).id_msb_ = t ∧
    (replace_component_type g t).id_msb_.testBit 0 = false ∧
    replace_component_type ⟨0, 42⟩ 7 = ⟨0x0E, 42⟩ ∧
    detail.get_component_type_from_gid 0x0E = 7 := by
  refine ⟨?_, testBit_replace_component_type g t ht, ?_,
    get_component_type_replace g t ht, ?_, by decide, by decide⟩
  · rw [replace_component_type, gid_type.mk2]
    rfl
  · have h := get_component_type_replace g t ht
    have h1 : gid_type.component_type_shift = 1 := rfl
    have h2 : gid_type.component_type_base_mask = 2 ^ 20 - 1 := by decide
    rw [detail.get_component_type_from_gid, h1, h2, Nat.and_pow_two_sub_one_eq_mod] at h
    omega
  · rw [testBit_replace_component_type g t ht]
    simp [hd]

/-- C13 at `g = (0, 42)` and `t = 7`. -/
theorem C13_replace_component_type_witness :
    (0 : Nat).testBit 0 = false ∧ (7 : Nat) < 2 ^ 20 ∧
      detail.get_component_type_from_gid (replace_component_type ⟨0, 42⟩ 7).id_msb_ = 7 :=
  ⟨by decide, by decide,
    (C13_replace_component_type ⟨0, 42⟩ 7 (by decide) (by decide)).2.2.2.1⟩

/-! ## Facts about construction and assignment -/

theorem is_locked_strip_lock (x l : Nat) :
    gid_type.is_locked { id_msb_ := detail.strip_lock_from_gid x, id_lsb_ := l } = false := by
  rw [is_locked_eq_testBit, testBit_strip_lock]
  simp

/-- Stripping the lock bit of a 64-bit word whose lock bit is clear changes
nothing. -/
theorem strip_lock_of_unlocked (x : Nat) (hx : x < 2 ^ 64) (h : x.testBit 29 = false) :
    detail.strip_lock_from_gid x = x := by
  apply Nat.eq_of_testBit_eq
  intro i
  rw [testBit_strip_lock]
  by_cases h1 : i < 64
  · by_cases h2 : i = 29
    · subst h2
      simp [h]
    · simp [h1, h2]
  · have hlt : x < 2 ^ i :=
      Nat.lt_of_lt_of_le hx (Nat.pow_le_pow_right (by omega) (by omega))
    simp [h1, Nat.testBit_lt_two_pow hlt]

/-- C14 as stated fails for self-assignment: the guard `this != &rhs` skips the
assignment, so a GID whose lock bit is set keeps it when assigned from itself. -/
theorem C14_self_assignment_counterexample :
    ¬ ((gid_type.operator_assign (fun _ => ⟨0x20000000, 7⟩) 0 0 0).is_locked = false ∧
        (gid_type.operator_assign_move (fun _ => ⟨0x20000000, 7⟩) 0 0 0).is_locked = false) := by
  decide

/-- C14 amended: the GID built by `gid_type(msb, lsb)`, by copy or move
construction from `s`, and by copy or move assignment from a source at another
address, has the lock bit clear, has `msb` equal to the input `msb` with only
bit 29 cleared (of the 64-bit word), and has the input `lsb`; copy or move
assignment of a GID to itself leaves the store, and so the GID with its lock
bit, unchanged. -/
theorem C14_constructors_strip_lock (msb lsb : Nat) (s : gid_type)
    (m : Nat → gid_type) (this_ptr rhs_ptr : Nat) (hne : this_ptr ≠ rhs_ptr) :
    (gid_type.mk2 msb lsb = ⟨detail.strip_lock_from_gid msb, lsb⟩ ∧
      (gid_type.mk2 msb lsb).is_locked = false) ∧
    (gid_type.copy s = ⟨detail.strip_lock_from_gid s.id_msb_, s.id_lsb_⟩ ∧
      (gid_type.copy s).is_locked = false) ∧
    ((gid_type.move s).1 = ⟨detail.strip_lock_from_gid s.id_msb_, s.id_lsb_⟩ ∧
      (gid_type.move s).1.is_locked = false) ∧
    (gid_type.operator_assign m this_ptr rhs_ptr this_ptr =
        ⟨detail.strip_lock_from_gid (m rhs_ptr).id_msb_, (m rhs_ptr).id_lsb_⟩ ∧
      (gid_type.operator_assign m this_ptr rhs_ptr this_ptr).is_locked = false) ∧
    (gid_type.operator_assign_move m this_ptr rhs_ptr this_ptr =
        ⟨detail.strip_lock_from_gid (m rhs_ptr).id_msb_, (m rhs_ptr).id_lsb_⟩ ∧
      (gid_type.operator_assign_move m this_ptr rhs_ptr this_ptr).is_locked = false) ∧
    (∀ x i : Nat, (detail.strip_lock_from_gid x).testBit i =
      (x.testBit i && decide (i < 64) && !decide (i = 29))) ∧
    (∀ x : Nat, x < 2 ^ 64 → x.testBit 29 = false → detail.strip_lock_from_gid x = x) ∧
    (gid_type.operator_assign m this_ptr this_ptr = m ∧
      gid_type.operator_assign_move m this_ptr this_ptr = m) := by
  have ha : gid_type.operator_assign m this_ptr rhs_ptr this_ptr =
      ⟨detail.strip_lock_from_gid (m rhs_ptr).id_msb_, (m rhs_ptr).id_lsb_⟩ := by
    rw [gid_type.operator_assign, if_pos hne, Function.update_same]
    rfl
  have hm : gid_type.operator_assign_move m this_ptr rhs_ptr this_ptr =
      ⟨detail.strip_lock_from_gid (m rhs_ptr).id_msb_, (m rhs_ptr).id_lsb_⟩ := by
    rw [gid_type.operator_assign_move, if_pos hne, Function.update_noteq hne,
      Function.update_same]
    rfl
  refine ⟨⟨rfl, is_locked_strip_lock _ _⟩, ⟨rfl, is_locked_strip_lock _ _⟩,
    ⟨rfl, is_locked_strip_lock _ _⟩, ⟨ha, ?_⟩, ⟨hm, ?_⟩, testBit_strip_lock,
    strip_lock_of_unlocked, ?_, ?_⟩
  · rw [ha]
    exact is_locked_strip_lock _ _
  · rw [hm]
    exact is_locked_strip_lock _ _
  · rw [gid_type.operator_assign, if_neg (fun h => h rfl)]
  · rw [gid_type.operator_assign_move, if_neg (fun h => h rfl)]

/-- C14 amended, at a store holding the locked GID `(0x20000000, 7)` at every
address, assigning to address 0 from address 1. -/
theorem C14_constructors_strip_lock_witness :
    (0 : Nat) ≠ 1 ∧
      gid_type.operator_assign (fun _ => ⟨0x20000000, 7⟩) 0 1 0 =
        ⟨detail.strip_lock_from_gid 0x20000000, 7⟩ ∧
      gid_type.is_locked ⟨0x20000000, 7⟩ = true ∧
      detail.strip_lock_from_gid 0x20000000 = 0 :=
  ⟨by decide,
    (C14_constructors_strip_lock 0 0 ⟨0, 0⟩ (fun _ => ⟨0x20000000, 7⟩) 0 1
      (by decide)).2.2.2.1.1,
    by decide, by decide⟩

/-- C15: `g & r` has `lsb = g.lsb AND r` and has the `msb` of `g` with only the
lock bit cleared; the mask does not touch `msb`. -/
theorem C15_operator_and (g : gid_type) (r : Nat) :
    (g.operator_and r).id_lsb_ = g.id_lsb_ &&& r ∧
    (g.operator_and r).id_msb_ = detail.strip_lock_from_gid g.id_msb_ ∧
    (∀ i, (g.operator_and r).id_msb_.testBit i =
      (g.id_msb_.testBit i && decide (i < 64) && !decide (i = 29))) ∧
    (g.operator_and r).is_locked = false ∧
    (g.id_msb_ < 2 ^ 64 → g.is_locked = false → (g.operator_and r).id_msb_ = g.id_msb_) ∧
    (∀ r2 : Nat, (g.operator_and r2).id_msb_ = (g.operator_and r).id_msb_) := by
  refine ⟨rfl, rfl, fun i => testBit_strip_lock g.id_msb_ i, is_locked_strip_lock _ _, ?_,
    fun _ => rfl⟩
  intro hx hl
  rw [is_locked_eq_testBit] at hl
  exact strip_lock_of_unlocked _ hx hl

/-! ## Facts about the bulk conversion, the null GID and the lock -/

theorem foldl_push_eq_append_map {α β : Type} (f : α → β) (l : List α) :
    ∀ acc : List β, l.foldl (fun result r => result ++ [f r]) acc = acc ++ l.map f := by
  induction l with
  | nil => intro acc; simp
  | cons x xs ih =>
    intro acc
    rw [List.foldl_cons, ih, List.map_cons, List.append_assoc]
    rfl

theorem get_remote_result_vector_eq_map (rhs : List gid_type) :
    traits.get_remote_result_vector.call rhs = rhs.map traits.get_remote_result.call := by
  have h := foldl_push_eq_append_map (fun r => traits.get_remote_result.call r) rhs []
  rw [List.nil_append] at h
  exact h

theorem try_lock_eq_acquire_lock (g : gid_type) : g.try_lock = g.acquire_lock := by
  unfold gid_type.try_lock
  cases h : g.acquire_lock with
  | mk b g2 => cases b <;> rfl

theorem is_locked_acquire_lock (g : gid_type) : g.acquire_lock.2.is_locked = true := by
  cases h : g.is_locked
  · rw [acquire_lock_of_unlocked g h, is_locked_eq_testBit]
    show (g.id_msb_ ||| 2 ^ 29).testBit 29 = true
    rw [Nat.testBit_or, Nat.testBit_two_pow]
    simp
  · rw [acquire_lock_of_locked g h]
    exact h

theorem is_locked_relinquish_lock (g : gid_type) : g.relinquish_lock.is_locked = false :=
  is_locked_strip_lock g.id_msb_ g.id_lsb_

/-- C16: the bulk converter returns, in order and without dropping duplicates,
the list obtained by applying the single-GID converter to each element: the
result has the same length, and its i-th handle wraps the i-th GID (same `lsb`,
same `msb` with the lock bit cleared) with mode `managed` when that GID has
credits and `unmanaged` otherwise. -/
theorem C16_bulk_conversion (rhs : List gid_type) :
    traits.get_remote_result_vector.call rhs = rhs.map traits.get_remote_result.call ∧
    (traits.get_remote_result_vector.call rhs).length = rhs.length ∧
    (∀ (i : Nat) (g : gid_type), rhs[i]? = some g →
      ∃ h : id_type, (traits.get_remote_result_vector.call rhs)[i]? = some h ∧
        h = traits.get_remote_result.call g ∧
        h.get_lsb = g.id_lsb_ ∧
        h.get_msb = detail.strip_lock_from_gid g.id_msb_ ∧
        h.get_management_type =
          (if detail.has_credits g then detail.id_type_management.managed
            else detail.id_type_management.unmanaged)) ∧
    traits.get_remote_result_vector.call [⟨0x442000000, 100⟩, ⟨0x20000000, 3⟩,
        ⟨0x442000000, 100⟩] =
      [id_type.from_gid ⟨0x442000000, 100⟩ detail.id_type_management.managed,
        id_type.from_gid ⟨0, 3⟩ detail.id_type_management.unmanaged,
        id_type.from_gid ⟨0x442000000, 100⟩ detail.id_type_management.managed] := by
  have hmap := get_remote_result_vector_eq_map rhs
  refine ⟨hmap, ?_, ?_, by decide⟩
  · rw [hmap, List.length_map]
  · intro i g hg
    refine ⟨traits.get_remote_result.call g, ?_, rfl, rfl, rfl, rfl⟩
    rw [hmap, List.getElem?_map, hg]
    rfl

/-- C17: `invalid_gid` is the GID `(0, 0)` and converts to `false`; a GID
converts to `false` exactly when both of its words are 0. -/
theorem C17_invalid_gid_is_false (g : gid_type) :
    invalid_gid = ⟨0, 0⟩ ∧ invalid_gid.operator_bool = false ∧
    (g.operator_bool = false ↔ g.id_msb_ = 0 ∧ g.id_lsb_ = 0) := by
  refine ⟨rfl, rfl, ?_⟩
  unfold gid_type.operator_bool
  constructor
  · intro h
    rw [Bool.or_eq_false_iff] at h
    constructor
    · have h2 : (0 : Nat) = g.id_msb_ := by simpa using h.2
      exact h2.symm
    · have h1 : (0 : Nat) = g.id_lsb_ := by simpa using h.1
      exact h1.symm
  · rintro ⟨h1, h2⟩
    rw [h1, h2]
    rfl

/-- C20: an attempt to take the lock on a GID whose lock bit is clear succeeds,
returns `true` and sets only bit 29 of `msb`; on a GID whose lock bit is set it
returns `false` and leaves the GID as it is; `try_lock` is that attempt and
`lock` repeats it.  So after any attempt the bit is set and further attempts
fail until the lock is released, after which an attempt succeeds again. -/
theorem C20_acquire_lock (g : gid_type) :
    (g.is_locked = false →
      g.acquire_lock = (true, ⟨g.id_msb_ ||| gid_type.is_locked_mask, g.id_lsb_⟩) ∧
      (∀ i, g.acquire_lock.2.id_msb_.testBit i = (g.id_msb_.testBit i || decide (i = 29))) ∧
      g.acquire_lock.2.id_lsb_ = g.id_lsb_) ∧
    (g.is_locked = true → g.acquire_lock = (false, g)) ∧
    g.try_lock = g.acquire_lock ∧
    g.acquire_lock.2.is_locked = true ∧
    g.acquire_lock.2.acquire_lock = (false, g.acquire_lock.2) ∧
    (∀ fuel, g.acquire_lock.2.lock fuel = none) ∧
    (g.is_locked = false → ∀ fuel, g.lock (fuel + 1) = some g.acquire_lock.2) ∧
    g.acquire_lock.2.relinquish_lock.acquire_lock.1 = true := by
  refine ⟨?_, acquire_lock_of_locked g, try_lock_eq_acquire_lock g, is_locked_acquire_lock g,
    acquire_lock_of_locked _ (is_locked_acquire_lock g),
    fun fuel => lock_loop_of_locked _ (is_locked_acquire_lock g) fuel, ?_, ?_⟩
  · intro h
    rw [acquire_lock_of_unlocked g h]
    refine ⟨rfl, fun i => ?_, rfl⟩
    show (g.id_msb_ ||| 2 ^ 29).testBit i = _
    rw [Nat.testBit_or, Nat.testBit_two_pow]
    congr 1
    exact decide_eq_decide.mpr eq_comm
  · intro h fuel
    rw [gid_type.lock, lock_loop_of_unlocked g h fuel, acquire_lock_of_unlocked g h]
  · rw [acquire_lock_of_unlocked _ (is_locked_relinquish_lock _)]

/-! ## Facts about addition -/

theorem testBit_special_bits_mask (i : Nat) :
    gid_type.special_bits_mask.testBit i =
      decide ((1 ≤ i ∧ i ≤ 20) ∨ (22 ≤ i ∧ i < 64)) := by
  have h : gid_type.locality_id_mask = (2 ^ 32 - 1) <<< 32 := by decide
  unfold gid_type.special_bits_mask
  rw [Nat.testBit_or, Nat.testBit_or, testBit_internal_bits_mask,
    testBit_component_type_mask, h, Nat.testBit_shiftLeft, Nat.testBit_two_pow_sub_one]
  by_cases h1 : 1 ≤ i ∧ i ≤ 20
  · simp [h1]
  · by_cases h2 : 22 ≤ i ∧ i ≤ 31
    · have h3 : 22 ≤ i ∧ i < 64 := by omega
      simp [h2, h3]
    · by_cases h3 : i ≥ 32
      · by_cases h4 : i < 64
        · have h5 : i - 32 < 32 := by omega
          have h6 : 22 ≤ i ∧ i < 64 := by omega
          simp [h3, h5, h6]
        · have h5 : ¬ i - 32 < 32 := by omega
          have h6 : ¬ (22 ≤ i ∧ i < 64) := by omega
          simp [h1, h2, h5, h6]
      · have h6 : ¬ (22 ≤ i ∧ i < 64) := by omega
        simp [h1, h2, h3, h6]

/-- Bits of the most significant word of a sum. -/
theorem testBit_operator_add (a b : gid_type) (i : Nat) :
    (a.operator_add b).id_msb_.testBit i =
      if (1 ≤ i ∧ i ≤ 20) ∨ (22 ≤ i ∧ i < 64) then a.id_msb_.testBit i
      else (decide (i < 64) &&
        (((a.id_msb_ &&& not64 gid_type.special_bits_mask) +
          (b.id_msb_ &&& not64 gid_type.special_bits_mask) +
          (if a.id_lsb_ + b.id_lsb_ ≥ 2 ^ 64 then 1 else 0)) % 2 ^ 64).testBit i) := by
  unfold gid_type.operator_add
  simp only []
  rw [Nat.testBit_or, Nat.testBit_and, Nat.testBit_and, testBit_not64,
    testBit_special_bits_mask]
  generalize (((a.id_msb_ &&& not64 gid_type.special_bits_mask) +
    (b.id_msb_ &&& not64 gid_type.special_bits_mask) +
    (if a.id_lsb_ + b.id_lsb_ ≥ 2 ^ 64 then 1 else 0)) % 2 ^ 64).testBit i = x
  by_cases h : (1 ≤ i ∧ i ≤ 20) ∨ (22 ≤ i ∧ i < 64)
  · rw [if_pos h, decide_eq_true h]
    simp
  · rw [if_neg h, decide_eq_false h]
    cases x <;> simp

/-- A 64-bit word without special bits is its own non-special part. -/
theorem and_not_special_of_no_special (x : Nat)
    (hx : x &&& gid_type.special_bits_mask = 0) :
    x &&& not64 gid_type.special_bits_mask = x % 2 ^ 64 := by
  apply Nat.eq_of_testBit_eq
  intro i
  have h1 : (x &&& gid_type.special_bits_mask).testBit i = (0 : Nat).testBit i := by rw [hx]
  rw [Nat.testBit_and, Nat.zero_testBit] at h1
  rw [Nat.testBit_and, testBit_not64, Nat.testBit_mod_two_pow]
  revert h1
  cases x.testBit i <;> cases gid_type.special_bits_mask.testBit i <;>
    cases decide (i < 64) <;> simp

/-- The locality id is read from bits 32..63 only. -/
theorem get_locality_id_congr (x y : Nat)
    (h : ∀ i, 32 ≤ i → i < 64 → x.testBit i = y.testBit i) :
    get_locality_id_from_gid x = get_locality_id_from_gid y := by
  have h32 : gid_type.locality_id_shift = 32 := rfl
  have he : (x >>> 32) % 2 ^ 32 = (y >>> 32) % 2 ^ 32 := by
    apply Nat.eq_of_testBit_eq
    intro j
    rw [Nat.testBit_mod_two_pow, Nat.testBit_mod_two_pow, Nat.testBit_shiftRight,
      Nat.testBit_shiftRight]
    by_cases hj : j < 32
    · rw [h (32 + j) (by omega) (by omega)]
    · simp [hj]
  rw [get_locality_id_from_gid, get_locality_id_from_gid, h32, he]

/-- C18: for GIDs `a` and `b` where `b` carries no special bits, `a + b` has
`lsb = (a.lsb + b.lsb) mod 2^64`, the non-special part of its `msb` is the sum
of the non-special part of `a.msb`, of `b.msb` and of the carry out of the
`lsb` sum, and its special bits (locality, internal bits, component type) are
those of `a`, so locality id and credit are those of `a`; with
`a = (locality 3 | credit 4, 100)` and `b = (0, 200)` the sum has `lsb = 300`,
locality 3 and credit 4. -/
theorem C18_operator_add (a b : gid_type)
    (hb : b.id_msb_ &&& gid_type.special_bits_mask = 0) :
    (a.operator_add b).id_lsb_ = (a.id_lsb_ + b.id_lsb_) % 2 ^ 64 ∧
    (a.operator_add b).id_msb_ &&& gid_type.special_bits_mask =
      a.id_msb_ &&& gid_type.special_bits_mask ∧
    (a.operator_add b).id_msb_ &&& not64 gid_type.special_bits_mask =
      (((a.id_msb_ &&& not64 gid_type.special_bits_mask) + b.id_msb_ % 2 ^ 64 +
        (if a.id_lsb_ + b.id_lsb_ ≥ 2 ^ 64 then 1 else 0)) % 2 ^ 64) &&&
        not64 gid_type.special_bits_mask ∧
    get_locality_id_from_gid (a.operator_add b).id_msb_ =
      get_locality_id_from_gid a.id_msb_ ∧
    detail.get_credit_from_gid (a.operator_add b) = detail.get_credit_from_gid a ∧
    detail.get_internal_bits (a.operator_add b).id_msb_ =
      detail.get_internal_bits a.id_msb_ ∧
    gid_type.operator_add ⟨0x442000000, 100⟩ ⟨0, 200⟩ = ⟨0x442000000, 300⟩ ∧
    gid_type.operator_add_u64 ⟨0x442000000, 100⟩ 200 = ⟨0x442000000, 300⟩ ∧
    get_locality_id_from_gid 0x442000000 = 3 ∧
    detail.get_credit_from_gid ⟨0x442000000, 100⟩ = 4 ∧
    detail.get_credit_from_gid ⟨0x442000000, 300⟩ = 4 := by
  have hs : ∀ i, ((1 ≤ i ∧ i ≤ 20) ∨ (22 ≤ i ∧ i < 64)) →
      (a.operator_add b).id_msb_.testBit i = a.id_msb_.testBit i := by
    intro i hi
    rw [testBit_operator_add, if_pos hi]
  refine ⟨rfl, ?_, ?_, ?_, ?_, ?_, by decide, by decide, by decide, by decide, by decide⟩
  · apply Nat.eq_of_testBit_eq
    intro i
    rw [Nat.testBit_and, Nat.testBit_and, testBit_special_bits_mask]
    by_cases hi : (1 ≤ i ∧ i ≤ 20) ∨ (22 ≤ i ∧ i < 64)
    · rw [hs i hi]
    · rw [decide_eq_false hi, Bool.and_false, Bool.and_false]
  · rw [← and_not_special_of_no_special b.id_msb_ hb]
    apply Nat.eq_of_testBit_eq
    intro i
    rw [Nat.testBit_and, Nat.testBit_and, testBit_not64, testBit_special_bits_mask,
      testBit_operator_add]
    by_cases hi : (1 ≤ i ∧ i ≤ 20) ∨ (22 ≤ i ∧ i < 64)
    · rw [decide_eq_true hi]
      simp
    · rw [if_neg hi, decide_eq_false hi]
      cases decide (i < 64) <;> simp
  · exact get_locality_id_congr _ _ (fun i h1 h2 => hs i (Or.inr ⟨by omega, h2⟩))
  · exact get_credit_congr _ _ (fun i h1 h2 => hs i (Or.inr ⟨by omega, by omega⟩))
      (hs 30 (Or.inr ⟨by omega, by omega⟩))
  · unfold detail.get_internal_bits
    apply Nat.eq_of_testBit_eq
    intro i
    rw [Nat.testBit_and, Nat.testBit_and, Nat.testBit_or, testBit_internal_bits_mask,
      testBit_component_type_mask]
    by_cases hi : (1 ≤ i ∧ i ≤ 20) ∨ (22 ≤ i ∧ i < 64)
    · rw [hs i hi]
    · have h1 : ¬ (22 ≤ i ∧ i ≤ 31) := by omega
      have h2 : ¬ (1 ≤ i ∧ i ≤ 20) := by omega
      rw [decide_eq_false h1, decide_eq_false h2]
      simp

/-- C18 at `a = (0x442000000, 100)` (locality 3, credit 4) and `b = (0, 200)`. -/
theorem C18_operator_add_witness :
    (0 &&& gid_type.special_bits_mask = 0) ∧
      (gid_type.operator_add ⟨0x442000000, 100⟩ ⟨0, 200⟩).id_lsb_ = (100 + 200) % 2 ^ 64 ∧
      get_locality_id_from_gid
          (gid_type.operator_add ⟨0x442000000, 100⟩ ⟨0, 200⟩).id_msb_ =
        get_locality_id_from_gid 0x442000000 :=
  have t := C18_operator_add ⟨0x442000000, 100⟩ ⟨0, 200⟩ (by decide)
  ⟨by decide, t.1, t.2.2.2.1⟩

/-! ## Facts about termination of `log2` -/

/-- On a negative value the loop of `log2` never ends: the arithmetic shift
keeps the sign. -/
theorem log2_loop_of_neg (fuel : Nat) :
    ∀ (val ret : Int), val < 0 → detail.log2_loop fuel val ret = none := by
  induction fuel with
  | zero => intro val ret _; rfl
  | succ n ih =>
    intro val ret hval
    have hne : val ≠ 0 := by omega
    have hsh : val >>> (1 : Nat) < 0 := by
      rw [Int.shiftRight_eq_div_pow]
      norm_num
      omega
    rw [detail.log2_loop, if_pos hne]
    exact ih _ _ hsh

/-- On a value in `[0, 2^k)` the loop of `log2` ends within `k + 1` rounds. -/
theorem log2_loop_of_nonneg (k : Nat) :
    ∀ (fuel : Nat) (val ret : Int), 0 ≤ val → val < 2 ^ k → k + 1 ≤ fuel →
      ∃ r : Int, detail.log2_loop fuel val ret = some r := by
  induction k with
  | zero =>
    intro fuel val ret h0 h1 hf
    obtain ⟨f, rfl⟩ : ∃ f, fuel = f + 1 := ⟨fuel - 1, by omega⟩
    have hz : val = 0 := by
      have : val < 1 := by simpa using h1
      omega
    exact ⟨ret, by rw [detail.log2_loop, hz]; simp⟩
  | succ n ih =>
    intro fuel val ret h0 h1 hf
    obtain ⟨f, rfl⟩ : ∃ f, fuel = f + 1 := ⟨fuel - 1, by omega⟩
    by_cases hz : val = 0
    · exact ⟨ret, by rw [detail.log2_loop, hz]; simp⟩
    · rw [detail.log2_loop, if_pos hz]
      apply ih f _ _ _ _ (by omega)
      · rw [Int.shiftRight_eq_div_pow]
        positivity
      · rw [Int.shiftRight_eq_div_pow, pow_one]
        rw [pow_succ] at h1
        omega

/-- C19, the code at the failing inputs: for every negative credit value (`-1`
among them) the loop of `detail::log2` never ends, whatever the number of
rounds, and so `set_credit_for_gid` never returns; for every credit value in
`[0, 2^63)` both return within 64 rounds. -/
theorem C19_set_credit_negative_never_returns (g : gid_type) (c : Int) :
    (c < 0 → ∀ fuel, detail.log2 fuel c = none ∧ detail.set_credit_for_gid fuel g c = none) ∧
    (0 ≤ c → c < 2 ^ 63 → ∀ fuel, 64 ≤ fuel →
      (∃ r, detail.log2 fuel c = some r) ∧ ∃ g2, detail.set_credit_for_gid fuel g c = some g2) ∧
    (∀ fuel, detail.log2 fuel (-1) = none ∧ detail.set_credit_for_gid fuel g (-1) = none) := by
  have hneg : ∀ c : Int, c < 0 → ∀ fuel,
      detail.log2 fuel c = none ∧ detail.set_credit_for_gid fuel g c = none := by
    intro c hc fuel
    have h1 : detail.log2 fuel c = none := log2_loop_of_neg fuel c (-1) hc
    refine ⟨h1, ?_⟩
    have hne : c ≠ 0 := by omega
    rw [detail.set_credit_for_gid, if_pos hne, h1]
  refine ⟨hneg c, ?_, hneg (-1) (by omega)⟩
  intro h0 h1 fuel hf
  obtain ⟨r, hr⟩ := log2_loop_of_nonneg 63 fuel c (-1) h0 h1 (by omega)
  have hr2 : detail.log2 fuel c = some r := hr
  refine ⟨⟨r, hr2⟩, ?_⟩
  by_cases hz : c = 0
  · exact ⟨detail.strip_credits_from_gid_ref g, by rw [detail.set_credit_for_gid, hz]; simp⟩
  · exact ⟨_, by rw [detail.set_credit_for_gid, if_pos hz, hr2]⟩

/-! ## Facts about release of the lock and about the order -/

/-- Taking the lock bit of a 64-bit word whose bit 29 is clear and stripping it
again gives the word back. -/
theorem strip_lock_or_lock (x : Nat) (hx : x < 2 ^ 64) (h : x.testBit 29 = false) :
    detail.strip_lock_from_gid (x ||| 2 ^ 29) = x := by
  apply Nat.eq_of_testBit_eq
  intro i
  rw [testBit_strip_lock, Nat.testBit_or, Nat.testBit_two_pow]
  by_cases h1 : i = 29
  · subst h1
    simp [h]
  · have h2 : ¬ 29 = i := fun e => h1 e.symm
    by_cases h3 : i < 64
    · simp [h1, h2, h3]
    · have hlt : x < 2 ^ i :=
        Nat.lt_of_lt_of_le hx (Nat.pow_le_pow_right (by omega) (by omega))
      simp [h1, h2, h3, Nat.testBit_lt_two_pow hlt]

/-- The comparisons in terms of the signed stripped word and the least
significant word. -/
theorem operator_cmp_iff_key (a b : gid_type) :
    (a.operator_eq b = true ↔
      to_int64 (detail.strip_internal_bits_from_gid a.id_msb_) =
          to_int64 (detail.strip_internal_bits_from_gid b.id_msb_) ∧
        a.id_lsb_ = b.id_lsb_) ∧
    (a.operator_lt b = true ↔
      to_int64 (detail.strip_internal_bits_from_gid a.id_msb_) <
          to_int64 (detail.strip_internal_bits_from_gid b.id_msb_) ∨
        (to_int64 (detail.strip_internal_bits_from_gid a.id_msb_) =
            to_int64 (detail.strip_internal_bits_from_gid b.id_msb_) ∧
          a.id_lsb_ < b.id_lsb_)) ∧
    (a.operator_le b = true ↔
      to_int64 (detail.strip_internal_bits_from_gid a.id_msb_) <
          to_int64 (detail.strip_internal_bits_from_gid b.id_msb_) ∨
        (to_int64 (detail.strip_internal_bits_from_gid a.id_msb_) =
            to_int64 (detail.strip_internal_bits_from_gid b.id_msb_) ∧
          a.id_lsb_ ≤ b.id_lsb_)) := by
  unfold gid_type.operator_eq gid_type.operator_lt gid_type.operator_le
  generalize to_int64 (detail.strip_internal_bits_from_gid a.id_msb_) = x
  generalize to_int64 (detail.strip_internal_bits_from_gid b.id_msb_) = y
  refine ⟨by simp, ?_, ?_⟩
  · by_cases h1 : x < y
    · simp [h1]
    · by_cases h2 : x > y
      · have h3 : ¬ x = y := by omega
        simp [h1, h2, h3]
      · have h3 : x = y := by omega
        simp [h3]
  · by_cases h1 : x < y
    · simp [h1]
    · by_cases h2 : x > y
      · have h3 : ¬ x = y := by omega
        simp [h1, h2, h3]
      · have h3 : x = y := by omega
        simp [h3]

/-- C21: release of the lock (`unlock`, `relinquish_lock`) clears the lock bit
and changes no other bit of the 64-bit `msb` nor `lsb`; a successful acquire on
an unlocked GID followed by a release gives back exactly the original GID. -/
theorem C21_release_lock (g : gid_type) (hg : g.id_msb_ < 2 ^ 64) :
    g.unlock = g.relinquish_lock ∧
    g.relinquish_lock.is_locked = false ∧
    g.relinquish_lock.id_lsb_ = g.id_lsb_ ∧
    (∀ i, i ≠ 29 → g.relinquish_lock.id_msb_.testBit i = g.id_msb_.testBit i) ∧
    (g.is_locked = false → g.relinquish_lock = g) ∧
    (g.is_locked = false →
      g.acquire_lock.1 = true ∧ g.acquire_lock.2.relinquish_lock = g ∧
        g.acquire_lock.2.unlock = g) := by
  have hrestore : g.is_locked = false → g.acquire_lock.2.relinquish_lock = g := by
    intro h
    rw [acquire_lock_of_unlocked g h]
    rw [is_locked_eq_testBit] at h
    show (⟨detail.strip_lock_from_gid (g.id_msb_ ||| 2 ^ 29), g.id_lsb_⟩ : gid_type) = g
    rw [strip_lock_or_lock _ hg h]
  refine ⟨rfl, is_locked_relinquish_lock g, rfl, ?_, ?_, ?_⟩
  · intro i hi
    rw [testBit_relinquish_lock]
    by_cases h64 : i < 64
    · simp [h64, hi]
    · have hlt : g.id_msb_ < 2 ^ i :=
        Nat.lt_of_lt_of_le hg (Nat.pow_le_pow_right (by omega) (by omega))
      simp [h64, Nat.testBit_lt_two_pow hlt]
  · intro h
    rw [is_locked_eq_testBit] at h
    show (⟨detail.strip_lock_from_gid g.id_msb_, g.id_lsb_⟩ : gid_type) = g
    rw [strip_lock_of_unlocked _ hg h]
  · intro h
    refine ⟨?_, hrestore h, hrestore h⟩
    rw [acquire_lock_of_unlocked g h]

/-- C21 at the GID `(0x442000000, 100)`. -/
theorem C21_release_lock_witness :
    (0x442000000 : Nat) < 2 ^ 64 ∧ gid_type.is_locked ⟨0x442000000, 100⟩ = false ∧
      (gid_type.acquire_lock ⟨0x442000000, 100⟩).2 = ⟨0x462000000, 100⟩ ∧
      (gid_type.acquire_lock ⟨0x442000000, 100⟩).2.relinquish_lock = ⟨0x442000000, 100⟩ :=
  ⟨by decide, by decide, by decide,
    ((C21_release_lock ⟨0x442000000, 100⟩ (by decide)).2.2.2.2.2 (by decide)).2.1⟩

/-- C23: `operator<` is a strict total order on GIDs modulo `operator==`:
exactly one of `a < b`, `a == b`, `b < a` holds, `a < b` and `b < c` give
`a < c`, and GIDs that compare equal are ordered alike against any third. -/
theorem C23_strict_total_order (a b c : gid_type) :
    ((a.operator_lt b = true ∧ a.operator_eq b = false ∧ b.operator_lt a = false) ∨
      (a.operator_lt b = false ∧ a.operator_eq b = true ∧ b.operator_lt a = false) ∨
      (a.operator_lt b = false ∧ a.operator_eq b = false ∧ b.operator_lt a = true)) ∧
    (a.operator_lt b = true → b.operator_lt c = true → a.operator_lt c = true) ∧
    a.operator_lt a = false ∧
    (a.operator_eq b = true →
      a.operator_lt c = b.operator_lt c ∧ c.operator_lt a = c.operator_lt b) := by
  have hab := operator_cmp_iff_key a b
  have hba := operator_cmp_iff_key b a
  have hbc := operator_cmp_iff_key b c
  have hac := operator_cmp_iff_key a c
  have hca := operator_cmp_iff_key c a
  have hcb := operator_cmp_iff_key c b
  have haa := operator_cmp_iff_key a a
  generalize to_int64 (detail.strip_internal_bits_from_gid a.id_msb_) = x at *
  generalize to_int64 (detail.strip_internal_bits_from_gid b.id_msb_) = y at *
  generalize to_int64 (detail.strip_internal_bits_from_gid c.id_msb_) = z at *
  refine ⟨?_, ?_, ?_, ?_⟩
  · simp only [← Bool.not_eq_true]
    rw [hab.1, hab.2.1, hba.2.1]
    omega
  · rw [hab.2.1, hbc.2.1, hac.2.1]
    omega
  · rw [← Bool.not_eq_true, haa.2.1]
    omega
  · intro h
    rw [hab.1] at h
    constructor
    · rw [Bool.eq_iff_iff, hac.2.1, hbc.2.1]
      omega
    · rw [Bool.eq_iff_iff, hca.2.1, hcb.2.1]
      omega

/-- C24: the comparison operators agree with each other: `a <= b` iff `a < b`
or `a == b`, `a > b` iff `b < a`, and `a >= b` iff `b <= a`. -/
theorem C24_comparisons_agree (a b : gid_type) :
    (a.operator_le b = true ↔ (a.operator_lt b = true ∨ a.operator_eq b = true)) ∧
    (a.operator_gt b = true ↔ b.operator_lt a = true) ∧
    (a.operator_ge b = true ↔ b.operator_le a = true) ∧
    a.operator_gt b = b.operator_lt a ∧
    a.operator_ge b = b.operator_le a ∧
    a.operator_ne b = !a.operator_eq b := by
  have hab := operator_cmp_iff_key a b
  have hba := operator_cmp_iff_key b a
  generalize to_int64 (detail.strip_internal_bits_from_gid a.id_msb_) = x at *
  generalize to_int64 (detail.strip_internal_bits_from_gid b.id_msb_) = y at *
  have h1 : a.operator_gt b = true ↔ b.operator_lt a = true := by
    unfold gid_type.operator_gt
    rw [Bool.not_eq_true', Bool.eq_false_iff, ne_eq, hab.2.2, hba.2.1]
    omega
  have h2 : a.operator_ge b = true ↔ b.operator_le a = true := by
    unfold gid_type.operator_ge
    rw [Bool.not_eq_true', Bool.eq_false_iff, ne_eq, hab.2.1, hba.2.2]
    omega
  refine ⟨?_, h1, h2, Bool.eq_iff_iff.mpr h1, Bool.eq_iff_iff.mpr h2, rfl⟩
  rw [hab.1, hab.2.1, hab.2.2]
  omega

/-! ## Facts about the boolean conversion -/

theorem operator_bool_eq_false_iff (g : gid_type) :
    g.operator_bool = false ↔ g.id_msb_ = 0 ∧ g.id_lsb_ = 0 := by
  unfold gid_type.operator_bool
  constructor
  · intro h
    rw [Bool.or_eq_false_iff] at h
    have h2 : (0 : Nat) = g.id_msb_ := by simpa using h.2
    have h1 : (0 : Nat) = g.id_lsb_ := by simpa using h.1
    exact ⟨h2.symm, h1.symm⟩
  · rintro ⟨h1, h2⟩
    rw [h1, h2]
    rfl

theorem strip_internal_zero : detail.strip_internal_bits_from_gid 0 = 0 := by decide

/-- The lock bit is one of the internal bits: nothing is left to strip. -/
theorem strip_lock_strip_internal (msb : Nat) :
    detail.strip_lock_from_gid (detail.strip_internal_bits_from_gid msb) =
      detail.strip_internal_bits_from_gid msb := by
  apply Nat.eq_of_testBit_eq
  intro i
  rw [testBit_strip_lock, testBit_strip_internal]
  by_cases h1 : i < 64
  · by_cases h2 : i = 29
    · have h3 : 22 ≤ i ∧ i ≤ 31 := by omega
      simp [h3]
    · simp [h1, h2]
  · simp [h1]

/-- A 64-bit word without internal bits is its own stripped form. -/
theorem strip_internal_of_no_internal (x : Nat) (hx : x < 2 ^ 64)
    (h : x &&& gid_type.internal_bits_mask = 0) :
    detail.strip_internal_bits_from_gid x = x := by
  apply Nat.eq_of_testBit_eq
  intro i
  have h1 : (x &&& gid_type.internal_bits_mask).testBit i = (0 : Nat).testBit i := by rw [h]
  rw [Nat.testBit_and, Nat.zero_testBit, testBit_internal_bits_mask] at h1
  rw [testBit_strip_internal]
  by_cases h64 : i < 64
  · rw [decide_eq_true h64]
    revert h1
    cases x.testBit i <;> cases decide (22 ≤ i ∧ i ≤ 31) <;> simp
  · have hlt : x < 2 ^ i :=
      Nat.lt_of_lt_of_le hx (Nat.pow_le_pow_right (by omega) (by omega))
    simp [Nat.testBit_lt_two_pow hlt]

theorem operator_eq_invalid_iff (g : gid_type) :
    g.operator_eq invalid_gid = true ↔
      detail.strip_internal_bits_from_gid g.id_msb_ = 0 ∧ g.id_lsb_ = 0 := by
  rw [operator_eq_iff]
  show detail.strip_internal_bits_from_gid g.id_msb_ =
    detail.strip_internal_bits_from_gid 0 ∧ g.id_lsb_ = 0 ↔ _
  rw [strip_internal_zero]

/-- C25 as stated fails: the GID `(0x40000000, 0)`, which has only the
`has_credits` bit set, compares equal to `invalid_gid` and converts to `true`. -/
theorem C25_bool_conversion_counterexample :
    ¬ (gid_type.operator_bool ⟨0x40000000, 0⟩ = false ↔
        gid_type.operator_eq ⟨0x40000000, 0⟩ invalid_gid = true) := by
  decide

/-- C25 amended: a GID that converts to `false` compares equal to
`invalid_gid`; a GID compares equal to `invalid_gid` exactly when its stripped
form converts to `false`, and then it converts to `false` itself provided no
internal bit of its 64-bit `msb` is set; for `a == b` the conversions of the
stripped forms of `a` and `b` agree. -/
theorem C25_bool_conversion_of_stripped (g : gid_type) :
    (g.operator_bool = false → g.operator_eq invalid_gid = true) ∧
    (g.operator_eq invalid_gid = true ↔ (detail.get_stripped_gid g).operator_bool = false) ∧
    (g.operator_eq invalid_gid = true → g.id_msb_ < 2 ^ 64 →
      g.id_msb_ &&& gid_type.internal_bits_mask = 0 → g.operator_bool = false) ∧
    (∀ a b : gid_type, a.operator_eq b = true →
      (detail.get_stripped_gid a).operator_bool = (detail.get_stripped_gid b).operator_bool) := by
  have hs : ∀ x : gid_type, (detail.get_stripped_gid x).id_msb_ =
      detail.strip_internal_bits_from_gid x.id_msb_ ∧
      (detail.get_stripped_gid x).id_lsb_ = x.id_lsb_ := by
    intro x
    exact ⟨strip_lock_strip_internal x.id_msb_, rfl⟩
  refine ⟨?_, ?_, ?_, ?_⟩
  · intro h
    rw [operator_bool_eq_false_iff] at h
    rw [operator_eq_invalid_iff, h.1, h.2]
    exact ⟨strip_internal_zero, rfl⟩
  · rw [operator_eq_invalid_iff, operator_bool_eq_false_iff, (hs g).1, (hs g).2]
  · intro h hx hm
    rw [operator_eq_invalid_iff, strip_internal_of_no_internal _ hx hm] at h
    exact (operator_bool_eq_false_iff g).mpr h
  · intro a b hab
    rw [operator_eq_iff] at hab
    have e : ∀ x : gid_type, detail.get_stripped_gid x =
        ⟨detail.strip_internal_bits_from_gid x.id_msb_, x.id_lsb_⟩ := by
      intro x
      show (⟨detail.strip_lock_from_gid (detail.strip_internal_bits_from_gid x.id_msb_),
        x.id_lsb_⟩ : gid_type) = _
      rw [strip_lock_strip_internal]
    rw [e a, e b, hab.1, hab.2]

/-- C25 amended, at the GID `(0, 0)`. -/
theorem C25_bool_conversion_of_stripped_witness :
    gid_type.operator_bool ⟨0, 0⟩ = false ∧ gid_type.operator_eq ⟨0, 0⟩ invalid_gid = true :=
  ⟨by decide, (C25_bool_conversion_of_stripped ⟨0, 0⟩).1 (by decide)⟩

/-! ## Facts about the single-flag mutators -/

theorem store_in_cache_eq_testBit (g : gid_type) :
    detail.store_in_cache g = !g.id_msb_.testBit 23 := by
  unfold detail.store_in_cache
  have h : ((g.get_msb &&& gid_type.dont_cache_mask) != 0) = g.id_msb_.testBit 23 :=
    and_two_pow_ne_zero g.id_msb_ 23
  rw [h]
  cases g.id_msb_.testBit 23 <;> rfl

theorem is_migratable_eq_testBit (g : gid_type) :
    detail.is_migratable g = g.id_msb_.testBit 22 :=
  and_two_pow_ne_zero g.id_msb_ 22

/-- The component type is read from bits 1..20 only. -/
theorem get_component_type_congr (x y : Nat)
    (h : ∀ i, 1 ≤ i → i ≤ 20 → x.testBit i = y.testBit i) :
    detail.get_component_type_from_gid x = detail.get_component_type_from_gid y := by
  have h1 : gid_type.component_type_shift = 1 := rfl
  have h2 : gid_type.component_type_base_mask = 2 ^ 20 - 1 := by decide
  have he : (x >>> 1) &&& (2 ^ 20 - 1) = (y >>> 1) &&& (2 ^ 20 - 1) := by
    apply Nat.eq_of_testBit_eq
    intro j
    rw [Nat.testBit_and, Nat.testBit_and, Nat.testBit_shiftRight, Nat.testBit_shiftRight,
      Nat.testBit_two_pow_sub_one]
    by_cases hj : j < 20
    · rw [h (1 + j) (by omega) (by omega)]
    · simp [hj]
  rw [detail.get_component_type_from_gid, detail.get_component_type_from_gid, h1, h2, he]

theorem testBit_or_two_pow (x b i : Nat) :
    (x ||| 2 ^ b).testBit i = (x.testBit i || decide (i = b)) := by
  rw [Nat.testBit_or, Nat.testBit_two_pow]
  congr 1
  exact decide_eq_decide.mpr eq_comm

/-- A GID that differs from `g` in at most one of the bits 22, 23, 31 of `msb`
reads the same through every accessor of another field. -/
theorem accessors_of_bits (g g2 : gid_type) (b : Nat) (hb : b = 22 ∨ b = 23 ∨ b = 31)
    (h : ∀ i, i ≠ b → g2.id_msb_.testBit i = g.id_msb_.testBit i) :
    detail.get_credit_from_gid g2 = detail.get_credit_from_gid g ∧
    detail.has_credits g2 = detail.has_credits g ∧
    detail.get_log2credit_from_gid g2 = detail.get_log2credit_from_gid g ∧
    get_locality_id_from_gid_ref g2 = get_locality_id_from_gid_ref g ∧
    detail.get_component_type_from_gid g2.id_msb_ =
      detail.get_component_type_from_gid g.id_msb_ ∧
    g2.is_locked = g.is_locked ∧
    (b ≠ 22 → detail.is_migratable g2 = detail.is_migratable g) ∧
    (b ≠ 23 → detail.store_in_cache g2 = detail.store_in_cache g) ∧
    (b ≠ 31 → detail.gid_was_split g2 = detail.gid_was_split g) := by
  refine ⟨?_, ?_, ?_, ?_, ?_, ?_, ?_, ?_, ?_⟩
  · exact get_credit_congr _ _ (fun i h1 h2 => h i (by omega)) (h 30 (by omega))
  · rw [has_credits_eq_testBit, has_credits_eq_testBit, h 30 (by omega)]
  · exact get_log2credit_congr _ _ (fun i h1 h2 => h i (by omega))
  · exact get_locality_id_congr _ _ (fun i h1 h2 => h i (by omega))
  · exact get_component_type_congr _ _ (fun i h1 h2 => h i (by omega))
  · rw [is_locked_eq_testBit, is_locked_eq_testBit, h 29 (by omega)]
  · intro hne
    rw [is_migratable_eq_testBit, is_migratable_eq_testBit, h 22 (fun e => hne e.symm)]
  · intro hne
    rw [store_in_cache_eq_testBit, store_in_cache_eq_testBit, h 23 (fun e => hne e.symm)]
  · intro hne
    rw [gid_was_split_eq_testBit, gid_was_split_eq_testBit, h 31 (fun e => hne e.symm)]

/-- Setting one bit of `msb`: the bits, the idempotence and the word `lsb`. -/
theorem set_bit_props (g : gid_type) (b : Nat) :
    (∀ i, (g.set_msb (g.get_msb ||| 2 ^ b)).id_msb_.testBit i =
      (g.id_msb_.testBit i || decide (i = b))) ∧
    (g.set_msb (g.get_msb ||| 2 ^ b)).id_lsb_ = g.id_lsb_ ∧
    (g.set_msb (g.get_msb ||| 2 ^ b)).set_msb
        ((g.set_msb (g.get_msb ||| 2 ^ b)).get_msb ||| 2 ^ b) =
      g.set_msb (g.get_msb ||| 2 ^ b) ∧
    (g.set_msb (g.get_msb ||| 2 ^ b)).id_msb_.testBit b = true := by
  refine ⟨fun i => testBit_or_two_pow g.id_msb_ b i, rfl, ?_, ?_⟩
  · show (⟨(g.id_msb_ ||| 2 ^ b) ||| 2 ^ b, g.id_lsb_⟩ : gid_type) =
      ⟨g.id_msb_ ||| 2 ^ b, g.id_lsb_⟩
    rw [Nat.or_assoc, Nat.or_self]
  · show (g.id_msb_ ||| 2 ^ b).testBit b = true
    rw [testBit_or_two_pow]
    simp

/-- What a mutator that sets bit `b` (one of 22, 23, 31) of `msb` does. -/
theorem mutator_block (f : gid_type → gid_type) (b : Nat) (hb : b = 22 ∨ b = 23 ∨ b = 31)
    (hf : ∀ x : gid_type, f x = x.set_msb (x.get_msb ||| 2 ^ b)) (g : gid_type) :
    ((∀ i, (f g).id_msb_.testBit i = (g.id_msb_.testBit i || decide (i = b))) ∧
      (f g).id_lsb_ = g.id_lsb_ ∧ f (f g) = f g ∧ (f g).id_msb_.testBit b = true) ∧
    (detail.get_credit_from_gid (f g) = detail.get_credit_from_gid g ∧
      detail.has_credits (f g) = detail.has_credits g ∧
      detail.get_log2credit_from_gid (f g) = detail.get_log2credit_from_gid g ∧
      get_locality_id_from_gid_ref (f g) = get_locality_id_from_gid_ref g ∧
      detail.get_component_type_from_gid (f g).id_msb_ =
        detail.get_component_type_from_gid g.id_msb_ ∧
      (f g).is_locked = g.is_locked ∧
      (b ≠ 22 → detail.is_migratable (f g) = detail.is_migratable g) ∧
      (b ≠ 23 → detail.store_in_cache (f g) = detail.store_in_cache g) ∧
      (b ≠ 31 → detail.gid_was_split (f g) = detail.gid_was_split g)) := by
  have hp := set_bit_props g b
  have hbits : ∀ i, (f g).id_msb_.testBit i = (g.id_msb_.testBit i || decide (i = b)) := by
    intro i
    rw [hf g]
    exact hp.1 i
  refine ⟨⟨hbits, ?_, ?_, ?_⟩, accessors_of_bits g (f g) b hb ?_⟩
  · rw [hf g]
    exact hp.2.1
  · rw [hf (f g), hf g]
    exact hp.2.2.1
  · rw [hf g]
    exact hp.2.2.2
  · intro i hi
    rw [hbits i]
    simp [hi]

/-- C29: `set_dont_store_in_cache`, `set_is_migratable` and
`set_credit_split_mask_for_gid` set exactly bit 23, bit 22 and bit 31 of `msb`
and are idempotent; afterwards `store_in_cache` is false, `is_migratable` is
true and `gid_was_split` is true respectively; each leaves `lsb` and every
other bit of `msb` as they are, so credit, locality id, component type and the
other flags read as before. -/
theorem C29_single_flag_mutators (g : gid_type) :
    ((∀ i, (detail.set_dont_store_in_cache g).id_msb_.testBit i =
        (g.id_msb_.testBit i || decide (i = 23))) ∧
      (detail.set_dont_store_in_cache g).id_lsb_ = g.id_lsb_ ∧
      detail.set_dont_store_in_cache (detail.set_dont_store_in_cache g) =
        detail.set_dont_store_in_cache g ∧
      detail.store_in_cache (detail.set_dont_store_in_cache g) = false ∧
      detail.get_credit_from_gid (detail.set_dont_store_in_cache g) =
        detail.get_credit_from_gid g ∧
      detail.has_credits (detail.set_dont_store_in_cache g) = detail.has_credits g ∧
      get_locality_id_from_gid_ref (detail.set_dont_store_in_cache g) =
        get_locality_id_from_gid_ref g ∧
      detail.get_component_type_from_gid (detail.set_dont_store_in_cache g).id_msb_ =
        detail.get_component_type_from_gid g.id_msb_ ∧
      (detail.set_dont_store_in_cache g).is_locked = g.is_locked ∧
      detail.is_migratable (detail.set_dont_store_in_cache g) = detail.is_migratable g ∧
      detail.gid_was_split (detail.set_dont_store_in_cache g) = detail.gid_was_split g) ∧
    ((∀ i, (detail.set_is_migratable g).id_msb_.testBit i =
        (g.id_msb_.testBit i || decide (i = 22))) ∧
      (detail.set_is_migratable g).id_lsb_ = g.id_lsb_ ∧
      detail.set_is_migratable (detail.set_is_migratable g) = detail.set_is_migratable g ∧
      detail.is_migratable (detail.set_is_migratable g) = true ∧
      detail.get_credit_from_gid (detail.set_is_migratable g) =
        detail.get_credit_from_gid g ∧
      detail.has_credits (detail.set_is_migratable g) = detail.has_credits g ∧
      get_locality_id_from_gid_ref (detail.set_is_migratable g) =
        get_locality_id_from_gid_ref g ∧
      detail.get_component_type_from_gid (detail.set_is_migratable g).id_msb_ =
        detail.get_component_type_from_gid g.id_msb_ ∧
      (detail.set_is_migratable g).is_locked = g.is_locked ∧
      detail.store_in_cache (detail.set_is_migratable g) = detail.store_in_cache g ∧
      detail.gid_was_split (detail.set_is_migratable g) = detail.gid_was_split g) ∧
    ((∀ i, (detail.set_credit_split_mask_for_gid g).id_msb_.testBit i =
        (g.id_msb_.testBit i || decide (i = 31))) ∧
      (detail.set_credit_split_mask_for_gid g).id_lsb_ = g.id_lsb_ ∧
      detail.set_credit_split_mask_for_gid (detail.set_credit_split_mask_for_gid g) =
        detail.set_credit_split_mask_for_gid g ∧
      detail.gid_was_split (detail.set_credit_split_mask_for_gid g) = true ∧
      detail.get_credit_from_gid (detail.set_credit_split_mask_for_gid g) =
        detail.get_credit_from_gid g ∧
      detail.has_credits (detail.set_credit_split_mask_for_gid g) = detail.has_credits g ∧
      get_locality_id_from_gid_ref (detail.set_credit_split_mask_for_gid g) =
        get_locality_id_from_gid_ref g ∧
      detail.get_component_type_from_gid (detail.set_credit_split_mask_for_gid g).id_msb_ =
        detail.get_component_type_from_gid g.id_msb_ ∧
      (detail.set_credit_split_mask_for_gid g).is_locked = g.is_locked ∧
      detail.store_in_cache (detail.set_credit_split_mask_for_gid g) =
        detail.store_in_cache g ∧
      detail.is_migratable (detail.set_credit_split_mask_for_gid g) =
        detail.is_migratable g) := by
  have h23 := mutator_block detail.set_dont_store_in_cache 23 (by omega) (fun _ => rfl) g
  have h22 := mutator_block detail.set_is_migratable 22 (by omega) (fun _ => rfl) g
  have h31 := mutator_block detail.set_credit_split_mask_for_gid 31 (by omega) (fun _ => rfl) g
  refine ⟨⟨h23.1.1, h23.1.2.1, h23.1.2.2.1, ?_, h23.2.1, h23.2.2.1, h23.2.2.2.2.1,
      h23.2.2.2.2.2.1, h23.2.2.2.2.2.2.1, h23.2.2.2.2.2.2.2.1 (by omega),
      h23.2.2.2.2.2.2.2.2.2 (by omega)⟩,
    ⟨h22.1.1, h22.1.2.1, h22.1.2.2.1, ?_, h22.2.1, h22.2.2.1, h22.2.2.2.2.1,
      h22.2.2.2.2.2.1, h22.2.2.2.2.2.2.1, h22.2.2.2.2.2.2.2.2.1 (by omega),
      h22.2.2.2.2.2.2.2.2.2 (by omega)⟩,
    ⟨h31.1.1, h31.1.2.1, h31.1.2.2.1, ?_, h31.2.1, h31.2.2.1, h31.2.2.2.2.1,
      h31.2.2.2.2.2.1, h31.2.2.2.2.2.2.1, h31.2.2.2.2.2.2.2.2.1 (by omega),
      h31.2.2.2.2.2.2.2.1 (by omega)⟩⟩
  · rw [store_in_cache_eq_testBit, h23.1.2.2.2]
    rfl
  · rw [is_migratable_eq_testBit, h22.1.2.2.2]
  · rw [gid_was_split_eq_testBit, h31.1.2.2.2]

/-! ## Facts about replacing the locality id -/

theorem testBit_locality_id_mask (i : Nat) :
    gid_type.locality_id_mask.testBit i = decide (32 ≤ i ∧ i < 64) := by
  have h : gid_type.locality_id_mask = (2 ^ 32 - 1) <<< 32 := by decide
  rw [h, Nat.testBit_shiftLeft, Nat.testBit_two_pow_sub_one]
  by_cases h1 : i ≥ 32
  · by_cases h2 : i < 64
    · have h3 : i - 32 < 32 := by omega
      have h4 : 32 ≤ i ∧ i < 64 := ⟨h1, h2⟩
      simp [h1, h3, h4]
    · have h3 : ¬ i - 32 < 32 := by omega
      have h4 : ¬ (32 ≤ i ∧ i < 64) := by omega
      simp [h3, h4]
  · have h4 : ¬ (32 ≤ i ∧ i < 64) := by omega
    simp [h1, h4]

/-- The most significant word of the GID of a locality: the encoding
`(N + 1) mod 2^32` in bits 32..63. -/
theorem get_gid_from_locality_id_msb_enc (N : Nat) :
    (get_gid_from_locality_id N).id_msb_ = ((N % 2 ^ 32 + 1) % 2 ^ 32) <<< 32 := by
  rw [get_gid_from_locality_id_msb]
  have h1 : ((N % 2 ^ 32 + 1) <<< 32) % 2 ^ 64 = ((N % 2 ^ 32 + 1) % 2 ^ 32) <<< 32 := by
    rw [Nat.shiftLeft_eq, Nat.shiftLeft_eq]
    omega
  rw [h1, strip_lock_shiftLeft_32 _ (Nat.mod_lt _ (by omega))]

theorem testBit_replace_locality_id (msb N i : Nat) :
    (replace_locality_id msb N).testBit i =
      if 32 ≤ i ∧ i < 64 then ((N % 2 ^ 32 + 1) % 2 ^ 32).testBit (i - 32)
      else (decide (i < 32) && msb.testBit i) := by
  rw [replace_locality_id, gid_type.get_msb, get_gid_from_locality_id_msb_enc]
  rw [Nat.testBit_or, Nat.testBit_and, testBit_not64, testBit_locality_id_mask,
    Nat.testBit_shiftLeft]
  have hE : (N % 2 ^ 32 + 1) % 2 ^ 32 < 2 ^ 32 := Nat.mod_lt _ (by omega)
  generalize (N % 2 ^ 32 + 1) % 2 ^ 32 = E at hE ⊢
  by_cases h1 : 32 ≤ i ∧ i < 64
  · have h2 : i ≥ 32 := h1.1
    have h3 : i < 64 := h1.2
    rw [if_pos h1, decide_eq_true h1, decide_eq_true h2, decide_eq_true h3]
    simp
  · rw [if_neg h1, decide_eq_false h1]
    by_cases h2 : i < 32
    · have h3 : ¬ i ≥ 32 := by omega
      have h4 : i < 64 := by omega
      rw [decide_eq_true h2, decide_eq_false h3, decide_eq_true h4]
      simp
    · have h3 : i ≥ 32 := by omega
      have h4 : ¬ i < 64 := by omega
      have hlt : E < 2 ^ (i - 32) :=
        Nat.lt_of_lt_of_le hE (Nat.pow_le_pow_right (by omega) (by omega))
      rw [decide_eq_false h2, decide_eq_false h4, Nat.testBit_lt_two_pow hlt]
      simp

theorem get_locality_id_replace (msb N : Nat) (hN : N < 2 ^ 32) :
    get_locality_id_from_gid (replace_locality_id msb N) = N := by
  have h32 : gid_type.locality_id_shift = 32 := rfl
  have he : (replace_locality_id msb N >>> 32) % 2 ^ 32 = (N % 2 ^ 32 + 1) % 2 ^ 32 := by
    apply Nat.eq_of_testBit_eq
    intro j
    rw [Nat.testBit_mod_two_pow, Nat.testBit_shiftRight, testBit_replace_locality_id]
    have hE : (N % 2 ^ 32 + 1) % 2 ^ 32 < 2 ^ 32 := Nat.mod_lt _ (by omega)
    generalize (N % 2 ^ 32 + 1) % 2 ^ 32 = E at hE ⊢
    by_cases hj : j < 32
    · have h1 : 32 ≤ 32 + j ∧ 32 + j < 64 := by omega
      have h2 : 32 + j - 32 = j := by omega
      rw [if_pos h1, h2, decide_eq_true hj, Bool.true_and]
    · have hlt : E < 2 ^ j :=
        Nat.lt_of_lt_of_le hE (Nat.pow_le_pow_right (by omega) (by omega))
      rw [decide_eq_false hj, Bool.false_and, Nat.testBit_lt_two_pow hlt]
  rw [get_locality_id_from_gid, h32, he]
  omega

/-- C30: `replace_locality_id` puts the encoding `(N + 1) mod 2^32` of the
locality id `N` into bits 32..63 of `msb` and keeps bits 0..31; the locality id
of the result is `N`; the GID overload keeps `lsb`, and its `msb` is that of
the word overload with the lock bit cleared. -/
theorem C30_replace_locality_id (g : gid_type) (N : Nat) (hN : N < 2 ^ 32) :
    (∀ i, (replace_locality_id g.id_msb_ N).testBit i =
      if 32 ≤ i ∧ i < 64 then ((N + 1) % 2 ^ 32).testBit (i - 32)
      else (decide (i < 32) && g.id_msb_.testBit i)) ∧
    (replace_locality_id g.id_msb_ N) >>> 32 = (N + 1) % 2 ^ 32 ∧
    (replace_locality_id g.id_msb_ N) % 2 ^ 32 = g.id_msb_ % 2 ^ 32 ∧
    get_locality_id_from_gid (replace_locality_id g.id_msb_ N) = N ∧
    (replace_locality_id_ref g N).id_lsb_ = g.id_lsb_ ∧
    (replace_locality_id_ref g N).id_msb_ =
      detail.strip_lock_from_gid (replace_locality_id g.id_msb_ N) ∧
    (∀ i, i ≠ 29 → (replace_locality_id_ref g N).id_msb_.testBit i =
      (replace_locality_id g.id_msb_ N).testBit i) ∧
    (replace_locality_id_ref g N).is_locked = false ∧
    get_locality_id_from_gid_ref (replace_locality_id_ref g N) = N := by
  have hmod : N % 2 ^ 32 = N := Nat.mod_eq_of_lt hN
  have hbits : ∀ i, (replace_locality_id g.id_msb_ N).testBit i =
      if 32 ≤ i ∧ i < 64 then ((N + 1) % 2 ^ 32).testBit (i - 32)
      else (decide (i < 32) && g.id_msb_.testBit i) := by
    intro i
    rw [testBit_replace_locality_id, hmod]
  have hlt : replace_locality_id g.id_msb_ N < 2 ^ 64 := by
    apply Nat.lt_pow_two_of_testBit
    intro i hi
    rw [hbits i]
    have h1 : ¬ (32 ≤ i ∧ i < 64) := by omega
    have h2 : ¬ i < 32 := by omega
    rw [if_neg h1, decide_eq_false h2, Bool.false_and]
  have href : (replace_locality_id_ref g N).id_msb_ =
      detail.strip_lock_from_gid (replace_locality_id g.id_msb_ N) := rfl
  have hrefbits : ∀ i, i ≠ 29 → (replace_locality_id_ref g N).id_msb_.testBit i =
      (replace_locality_id g.id_msb_ N).testBit i := by
    intro i hi
    rw [href, testBit_strip_lock]
    by_cases h64 : i < 64
    · simp [h64, hi]
    · have hl : replace_locality_id g.id_msb_ N < 2 ^ i :=
        Nat.lt_of_lt_of_le hlt (Nat.pow_le_pow_right (by omega) (by omega))
      simp [Nat.testBit_lt_two_pow hl]
  refine ⟨hbits, ?_, ?_, get_locality_id_replace _ N hN, rfl, href, hrefbits, ?_, ?_⟩
  · apply Nat.eq_of_testBit_eq
    intro j
    rw [Nat.testBit_shiftRight, hbits]
    have hE : (N + 1) % 2 ^ 32 < 2 ^ 32 := Nat.mod_lt _ (by omega)
    generalize (N + 1) % 2 ^ 32 = E at hE ⊢
    by_cases hj : j < 32
    · have h1 : 32 ≤ 32 + j ∧ 32 + j < 64 := by omega
      have h2 : 32 + j - 32 = j := by omega
      rw [if_pos h1, h2]
    · have h1 : ¬ (32 ≤ 32 + j ∧ 32 + j < 64) := by omega
      have h2 : ¬ 32 + j < 32 := by omega
      have hl : E < 2 ^ j :=
        Nat.lt_of_lt_of_le hE (Nat.pow_le_pow_right (by omega) (by omega))
      rw [if_neg h1, decide_eq_false h2, Bool.false_and, Nat.testBit_lt_two_pow hl]
  · apply Nat.eq_of_testBit_eq
    intro j
    rw [Nat.testBit_mod_two_pow, Nat.testBit_mod_two_pow, hbits]
    by_cases hj : j < 32
    · have h1 : ¬ (32 ≤ j ∧ j < 64) := by omega
      rw [if_neg h1, decide_eq_true hj]
      simp
    · rw [decide_eq_false hj]
      simp
  · rw [is_locked_eq_testBit, href, testBit_strip_lock]
    simp
  · rw [get_locality_id_from_gid_ref, gid_type.get_msb,
      get_locality_id_congr _ (replace_locality_id g.id_msb_ N)
        (fun i h1 h2 => hrefbits i (by omega))]
    exact get_locality_id_replace _ N hN

/-- C30 at `g = (0x4620000FF, 9)` (locked, locality 3) and `N = 7`. -/
theorem C30_replace_locality_id_witness :
    (7 : Nat) < 2 ^ 32 ∧
      replace_locality_id 0x4620000FF 7 = 0x8620000FF ∧
      replace_locality_id_ref ⟨0x4620000FF, 9⟩ 7 = ⟨0x8420000FF, 9⟩ ∧
      get_locality_id_from_gid_ref (replace_locality_id_ref ⟨0x4620000FF, 9⟩ 7) = 7 :=
  ⟨by decide, by decide, by decide,
    (C30_replace_locality_id ⟨0x4620000FF, 9⟩ 7 (by decide)).2.2.2.2.2.2.2.2⟩

/-! ## Facts about the value of `log2` -/

/-- On a value in `[2^k, 2^(k+1))` the loop of `log2` ends after `k + 1`
halvings. -/
theorem log2_loop_of_range (k : Nat) :
    ∀ (fuel : Nat) (val ret : Int), 2 ^ k ≤ val → val < 2 ^ (k + 1) → k + 2 ≤ fuel →
      detail.log2_loop fuel val ret = some (ret + k + 1) := by
  induction k with
  | zero =>
    intro fuel val ret h1 h2 hf
    have hv : val = 1 := by
      rw [pow_zero] at h1
      rw [zero_add, pow_one] at h2
      omega
    rw [hv]
    exact log2_loop_two_pow 0 fuel ret hf
  | succ n ih =>
    intro fuel val ret h1 h2 hf
    obtain ⟨f, rfl⟩ : ∃ f, fuel = f + 1 := ⟨fuel - 1, by omega⟩
    have hpos : (0 : Int) < 2 ^ n := by positivity
    rw [pow_succ] at h1 h2
    have hne : val ≠ 0 := by omega
    have hsh : val >>> (1 : Nat) = val / 2 := by
      rw [Int.shiftRight_eq_div_pow]
      norm_num
    rw [detail.log2_loop, if_pos hne, hsh, ih f (val / 2) (ret + 1) (by omega) (by omega)
      (by omega)]
    push_cast
    congr 1
    ring

theorem log2_of_range (k fuel : Nat) (val : Int) (h1 : 2 ^ k ≤ val) (h2 : val < 2 ^ (k + 1))
    (hf : k + 2 ≤ fuel) : detail.log2 fuel val = some (k : Int) := by
  unfold detail.log2
  rw [log2_loop_of_range k fuel val (-1) h1 h2 hf]
  congr 1
  ring

/-- Every value in `[1, 2^63)` lies in exactly one range `[2^k, 2^(k+1))`, and
there `k <= 62`. -/
theorem exists_log2_range (val : Int) (h1 : 1 ≤ val) (h2 : val < 2 ^ 63) :
    ∃ k : Nat, k ≤ 62 ∧ (2 : Int) ^ k ≤ val ∧ val < 2 ^ (k + 1) ∧
      ∀ j : Nat, (2 : Int) ^ j ≤ val → val < 2 ^ (j + 1) → j = k := by
  obtain ⟨n, rfl⟩ : ∃ n : Nat, val = (n : Int) := ⟨val.toNat, by omega⟩
  have hn : n ≠ 0 := by omega
  have hn63 : n < 2 ^ 63 := by exact_mod_cast h2
  have hk : n.log2 < 63 := (Nat.log2_lt hn).mpr hn63
  refine ⟨n.log2, by omega, ?_, ?_, ?_⟩
  · exact_mod_cast Nat.log2_self_le hn
  · exact_mod_cast (Nat.lt_log2_self : n < 2 ^ (n.log2 + 1))
  · intro j hj1 hj2
    have a1 : 2 ^ j ≤ n := by exact_mod_cast hj1
    have a2 : n < 2 ^ (j + 1) := by exact_mod_cast hj2
    have b1 : j ≤ n.log2 := (Nat.le_log2 hn).mpr a1
    have b2 : n.log2 < j + 1 := (Nat.log2_lt hn).mpr a2
    omega

theorem log2_zero (fuel : Nat) (hf : 1 ≤ fuel) : detail.log2 fuel 0 = some (-1) := by
  obtain ⟨f, rfl⟩ : ∃ f, fuel = f + 1 := ⟨fuel - 1, by omega⟩
  simp [detail.log2, detail.log2_loop]

/-- C27: `detail::log2` computes the floor of the base-2 logarithm: for `val`
in `[1, 2^63)` it returns the unique `k` in `[0, 62]` with
`2^k <= val < 2^(k+1)`, and there `power2(log2(val)) <= val` with equality
exactly when `val` is a power of two; for `val = 0` it returns `-1`. -/
theorem C27_log2_floor (val : Int) (fuel : Nat) (hfuel : 64 ≤ fuel) :
    (1 ≤ val → val < 2 ^ 63 →
      ∃ k : Nat, k ≤ 62 ∧ detail.log2 fuel val = some (k : Int) ∧
        (2 : Int) ^ k ≤ val ∧ val < 2 ^ (k + 1) ∧
        (∀ j : Nat, (2 : Int) ^ j ≤ val → val < 2 ^ (j + 1) → j = k) ∧
        detail.power2 (k : Int) ≤ val ∧
        (detail.power2 (k : Int) = val ↔ ∃ j : Nat, val = 2 ^ j)) ∧
    detail.log2 fuel 0 = some (-1) := by
  refine ⟨?_, log2_zero fuel (by omega)⟩
  intro h1 h2
  obtain ⟨k, hk, hlo, hhi, huniq⟩ := exists_log2_range val h1 h2
  have hp : detail.power2 (k : Int) = 2 ^ k := power2_natCast k (by omega)
  refine ⟨k, hk, log2_of_range k fuel val hlo hhi (by omega), hlo, hhi, huniq, ?_, ?_⟩
  · rw [hp]
    exact hlo
  · rw [hp]
    constructor
    · intro h
      exact ⟨k, h.symm⟩
    · rintro ⟨j, hj⟩
      have hjk : j = k := by
        apply huniq j
        · rw [hj]
        · rw [hj, pow_succ]
          have : (0 : Int) < 2 ^ j := by positivity
          omega
      rw [hj, hjk]

/-- C27 at `val = 5`, whose floor logarithm is 2. -/
theorem C27_log2_floor_witness :
    (64 : Nat) ≤ 64 ∧ detail.log2 64 5 = some 2 ∧ detail.log2 64 0 = some (-1) :=
  ⟨by decide, by decide, (C27_log2_floor 5 64 (by decide)).2⟩

/-! ## Facts about the assertions and the bits written by `set_credit_for_gid` -/

/-- An exponent up to 62 passes the 5-bit check exactly when it is at most 31. -/
theorem fits_credit_field_iff :
    ∀ k : Nat, k < 63 →
      ((0 = (k &&& not64 gid_type.credit_base_mask)) ↔ k ≤ 31) := by
  decide

theorem to_uint64_natCast (k : Nat) (hk : k < 2 ^ 64) : to_uint64 (k : Int) = k := by
  unfold to_uint64
  omega

/-- The assertions of `set_log2credit_for_gid` on an exponent up to 62. -/
theorem set_log2credit_asserts_iff (k : Nat) (hk : k ≤ 62) :
    detail.set_log2credit_for_gid_asserts (k : Int) = true ↔ k ≤ 31 := by
  unfold detail.set_log2credit_for_gid_asserts
  rw [to_uint64_natCast k (by omega)]
  have h0 : ((k : Int) ≥ 0) := by omega
  rw [decide_eq_true h0, Bool.true_and, decide_eq_true_eq]
  exact fits_credit_field_iff k (by omega)

/-- Bits of `msb` outside the credit field after `set_log2credit_for_gid`, for
any exponent. -/
theorem testBit_set_log2credit_outside (g : gid_type) (l : Int) (i : Nat)
    (hi : ¬ (24 ≤ i ∧ i < 29)) :
    (detail.set_log2credit_for_gid g l).id_msb_.testBit i =
      if i = 30 then true else (decide (i < 64) && g.id_msb_.testBit i) := by
  have h30 : gid_type.has_credits_mask = 2 ^ 30 := by decide
  unfold detail.set_log2credit_for_gid
  show ((g.id_msb_ &&& not64 gid_type.credit_mask) |||
    (to_uint64 (to_int32 (l * 2 ^ gid_type.credit_shift)) &&& gid_type.credit_mask) |||
    gid_type.has_credits_mask).testBit i = _
  rw [h30, Nat.testBit_or, Nat.testBit_or, Nat.testBit_and, Nat.testBit_and, testBit_not64,
    testBit_credit_mask, Nat.testBit_two_pow, decide_eq_false hi]
  by_cases h1 : i = 30
  · simp [h1]
  · have h2 : ¬ 30 = i := fun e => h1 e.symm
    rw [if_neg h1, decide_eq_false h2]
    by_cases h64 : i < 64 <;> simp [h64]

/-- C26: for a credit value `c` in `[0, 2^63)` the assertions met by
`set_credit_for_gid` (that of `power2`, `power2(log2(c)) == c`, and the two of
`set_log2credit_for_gid`: `log2credits >= 0` and the 5-bit check) all hold
exactly when `c = 0` or `c` is a power of two with `1 <= c <= 2^31`. -/
theorem C26_assertions_iff_valid_credit (c : Int) (fuel : Nat)
    (h0 : 0 ≤ c) (h1 : c < 2 ^ 63) (hfuel : 64 ≤ fuel) :
    ∃ b : Bool, detail.set_credit_for_gid_asserts fuel c = some b ∧
      (b = true ↔ (c = 0 ∨ ∃ k : Nat, k ≤ 31 ∧ c = 2 ^ k)) := by
  by_cases hz : c = 0
  · refine ⟨true, ?_, ?_⟩
    · rw [detail.set_credit_for_gid_asserts, hz]
      simp
    · simp [hz]
  · obtain ⟨k, hk, hlo, hhi, huniq⟩ := exists_log2_range c (by omega) h1
    have hlog := log2_of_range k fuel c hlo hhi (by omega)
    have hp : detail.power2 (k : Int) = 2 ^ k := power2_natCast k (by omega)
    have hpa : detail.power2_asserts (k : Int) = true := by
      unfold detail.power2_asserts
      exact decide_eq_true (by omega)
    refine ⟨detail.power2_asserts (k : Int) && decide (detail.power2 (k : Int) = c) &&
      detail.set_log2credit_for_gid_asserts (k : Int), ?_, ?_⟩
    · rw [detail.set_credit_for_gid_asserts, if_pos hz, hlog]
    · rw [hpa, Bool.true_and, Bool.and_eq_true, decide_eq_true_eq, hp,
        set_log2credit_asserts_iff k hk]
      constructor
      · rintro ⟨h2, h3⟩
        exact Or.inr ⟨k, h3, h2.symm⟩
      · rintro (h2 | ⟨j, hj, hcj⟩)
        · exact absurd h2 hz
        · have hjk : j = k := by
            apply huniq j
            · rw [hcj]
            · rw [hcj, pow_succ]
              have : (0 : Int) < 2 ^ j := by positivity
              omega
          rw [← hjk]
          exact ⟨hcj.symm, hj⟩

/-- C26 at `c = 2^32`, a power of two that does not fit the 5-bit field: an
assertion fails. -/
theorem C26_assertions_iff_valid_credit_witness :
    (0 : Int) ≤ 2 ^ 32 ∧ (2 : Int) ^ 32 < 2 ^ 63 ∧ (64 : Nat) ≤ 64 ∧
      detail.set_credit_for_gid_asserts 64 (2 ^ 32) = some false ∧
      ∃ b : Bool, detail.set_credit_for_gid_asserts 64 (2 ^ 32) = some b ∧
        (b = true ↔ ((2 : Int) ^ 32 = 0 ∨ ∃ k : Nat, k ≤ 31 ∧ (2 : Int) ^ 32 = 2 ^ k)) :=
  ⟨by decide, by decide, by decide, by decide,
    C26_assertions_iff_valid_credit (2 ^ 32) 64 (by decide) (by decide) (by decide)⟩

/-- C28: for every credit value `c` in `[0, 2^63)`, power of two or not,
`set_credit_for_gid` returns, keeps `lsb`, and keeps every bit of the 64-bit
`msb` outside `credit_bits_mask` (bits 24..28, 30, 31), so the lock bit, the
locality id, the component type, `dont_cache` and `is_migratable` read as
before; for `c != 0` the `was_split` bit is kept as well, for `c = 0` it is
cleared. -/
theorem C28_set_credit_changes_only_credit_bits (g : gid_type) (c : Int) (fuel : Nat)
    (h0 : 0 ≤ c) (h1 : c < 2 ^ 63) (hfuel : 64 ≤ fuel) :
    ∃ g2 : gid_type, detail.set_credit_for_gid fuel g c = some g2 ∧
      g2.id_lsb_ = g.id_lsb_ ∧
      (∀ i, i < 64 → ¬ (24 ≤ i ∧ i < 29 ∨ i = 30 ∨ i = 31) →
        g2.id_msb_.testBit i = g.id_msb_.testBit i) ∧
      (∀ i, gid_type.credit_bits_mask.testBit i =
        decide (24 ≤ i ∧ i < 29 ∨ i = 30 ∨ i = 31)) ∧
      g2.is_locked = g.is_locked ∧
      get_locality_id_from_gid_ref g2 = get_locality_id_from_gid_ref g ∧
      detail.get_component_type_from_gid g2.id_msb_ =
        detail.get_component_type_from_gid g.id_msb_ ∧
      detail.store_in_cache g2 = detail.store_in_cache g ∧
      detail.is_migratable g2 = detail.is_migratable g ∧
      (c ≠ 0 → detail.gid_was_split g2 = detail.gid_was_split g) ∧
      (c = 0 → detail.gid_was_split g2 = false) := by
  have hacc : ∀ g2 : gid_type,
      (∀ i, i < 64 → ¬ (24 ≤ i ∧ i < 29 ∨ i = 30 ∨ i = 31) →
        g2.id_msb_.testBit i = g.id_msb_.testBit i) →
      g2.is_locked = g.is_locked ∧
      get_locality_id_from_gid_ref g2 = get_locality_id_from_gid_ref g ∧
      detail.get_component_type_from_gid g2.id_msb_ =
        detail.get_component_type_from_gid g.id_msb_ ∧
      detail.store_in_cache g2 = detail.store_in_cache g ∧
      detail.is_migratable g2 = detail.is_migratable g := by
    intro g2 h
    refine ⟨?_, ?_, ?_, ?_, ?_⟩
    · rw [is_locked_eq_testBit, is_locked_eq_testBit, h 29 (by omega) (by omega)]
    · exact get_locality_id_congr _ _ (fun i h1 h2 => h i h2 (by omega))
    · exact get_component_type_congr _ _ (fun i h1 h2 => h i (by omega) (by omega))
    · rw [store_in_cache_eq_testBit, store_in_cache_eq_testBit, h 23 (by omega) (by omega)]
    · rw [is_migratable_eq_testBit, is_migratable_eq_testBit, h 22 (by omega) (by omega)]
  by_cases hz : c = 0
  · have hbits : ∀ i, i < 64 → ¬ (24 ≤ i ∧ i < 29 ∨ i = 30 ∨ i = 31) →
        (detail.strip_credits_from_gid_ref g).id_msb_.testBit i = g.id_msb_.testBit i := by
      intro i h64 hi
      show (detail.strip_credits_from_gid g.id_msb_).testBit i = _
      rw [testBit_strip_credits, decide_eq_true h64, decide_eq_false hi]
      simp
    have ha := hacc _ hbits
    refine ⟨detail.strip_credits_from_gid_ref g, ?_, rfl, hbits, testBit_credit_bits_mask,
      ha.1, ha.2.1, ha.2.2.1, ha.2.2.2.1, ha.2.2.2.2, fun h => absurd hz h, fun _ => ?_⟩
    · rw [detail.set_credit_for_gid, hz]
      simp
    · rw [gid_was_split_eq_testBit]
      show (detail.strip_credits_from_gid g.id_msb_).testBit 31 = false
      rw [testBit_strip_credits]
      simp
  · obtain ⟨l, hl⟩ := log2_loop_of_nonneg 63 fuel c (-1) h0 h1 (by omega)
    have hl2 : detail.log2 fuel c = some l := hl
    have hbits : ∀ i, i < 64 → ¬ (24 ≤ i ∧ i < 29 ∨ i = 30 ∨ i = 31) →
        (detail.set_log2credit_for_gid g l).id_msb_.testBit i = g.id_msb_.testBit i := by
      intro i h64 hi
      rw [testBit_set_log2credit_outside g l i (by omega), if_neg (by omega),
        decide_eq_true h64, Bool.true_and]
    have ha := hacc _ hbits
    refine ⟨detail.set_log2credit_for_gid g l, ?_, rfl, hbits, testBit_credit_bits_mask,
      ha.1, ha.2.1, ha.2.2.1, ha.2.2.2.1, ha.2.2.2.2, fun _ => ?_, fun h => absurd h hz⟩
    · rw [detail.set_credit_for_gid, if_pos hz, hl2]
    · rw [gid_was_split_eq_testBit, gid_was_split_eq_testBit,
        testBit_set_log2credit_outside g l 31 (by omega), if_neg (by omega)]
      simp

/-- C28 at `g = (0xFFFFFFFFFFFFFFFF, 9)` and `c = 2^40 + 5`, which is neither a
power of two nor in range. -/
theorem C28_set_credit_changes_only_credit_bits_witness :
    (0 : Int) ≤ 2 ^ 40 + 5 ∧ (2 : Int) ^ 40 + 5 < 2 ^ 63 ∧ (64 : Nat) ≤ 64 ∧
      detail.set_credit_for_gid 64 ⟨0xFFFFFFFFFFFFFFFF, 9⟩ (2 ^ 40 + 5) =
        some ⟨0xFFFFFFFFE8FFFFFF, 9⟩ ∧
      ∃ g2 : gid_type,
        detail.set_credit_for_gid 64 ⟨0xFFFFFFFFFFFFFFFF, 9⟩ (2 ^ 40 + 5) = some g2 ∧
        g2.id_lsb_ = 9 :=
  have t := C28_set_credit_changes_only_credit_bits ⟨0xFFFFFFFFFFFFFFFF, 9⟩ (2 ^ 40 + 5) 64
    (by decide) (by decide) (by decide)
  ⟨by decide, by decide, by decide, by decide,
    t.elim fun g2 h => ⟨g2, h.1, h.2.1⟩⟩

/-! ## Facts about moves and about stripping except `dont_cache` -/

theorem testBit_strip_except_dont_cache (msb i : Nat) :
    (detail.strip_internal_bits_except_dont_cache_from_gid msb).testBit i =
      (msb.testBit i && decide (i < 64) && !decide (24 ≤ i ∧ i ≤ 31)) := by
  have h29 : gid_type.is_locked_mask = 2 ^ 29 := by decide
  unfold detail.strip_internal_bits_except_dont_cache_from_gid
  rw [Nat.testBit_and, testBit_not64, Nat.testBit_or, testBit_credit_bits_mask, h29,
    Nat.testBit_two_pow, Bool.and_assoc]
  by_cases h : 24 ≤ i ∧ i ≤ 31
  · rw [decide_eq_true h]
    by_cases h1 : i = 29
    · have h2 : (29 : Nat) = i := h1.symm
      simp [h2]
    · have h2 : 24 ≤ i ∧ i < 29 ∨ i = 30 ∨ i = 31 := by omega
      simp [h2]
  · have h1 : ¬ (24 ≤ i ∧ i < 29 ∨ i = 30 ∨ i = 31) := by omega
    have h2 : ¬ 29 = i := by omega
    rw [decide_eq_false h, decide_eq_false h1, decide_eq_false h2]
    simp

/-- The word kept by `strip_internal_bits_except_dont_cache_from_gid`: the
stripped word together with bits 22 and 23 of the input. -/
theorem strip_except_dont_cache_eq (msb : Nat) :
    detail.strip_internal_bits_except_dont_cache_from_gid msb =
      detail.strip_internal_bits_from_gid msb |||
        (msb &&& (gid_type.dont_cache_mask ||| gid_type.is_migratable)) := by
  have h23 : gid_type.dont_cache_mask = 2 ^ 23 := by decide
  have h22 : gid_type.is_migratable = 2 ^ 22 := by decide
  apply Nat.eq_of_testBit_eq
  intro i
  rw [testBit_strip_except_dont_cache, Nat.testBit_or, testBit_strip_internal,
    Nat.testBit_and, Nat.testBit_or, h23, h22, Nat.testBit_two_pow, Nat.testBit_two_pow]
  by_cases h1 : i = 22
  · subst h1
    simp
  · by_cases h2 : i = 23
    · subst h2
      simp
    · have e1 : ¬ 23 = i := fun e => h2 e.symm
      have e2 : ¬ 22 = i := fun e => h1 e.symm
      rw [decide_eq_false e1, decide_eq_false e2]
      by_cases h3 : 24 ≤ i ∧ i ≤ 31
      · have h4 : 22 ≤ i ∧ i ≤ 31 := by omega
        rw [decide_eq_true h3, decide_eq_true h4]
        simp
      · have h4 : ¬ (22 ≤ i ∧ i ≤ 31) := by omega
        rw [decide_eq_false h3, decide_eq_false h4]
        simp

/-- C31: move construction and move assignment from a source at another
address give the destination `(s.msb with the lock bit cleared, s.lsb)` and
leave the source `(0, 0)`, the invalid GID, whose lock bit is clear; copy or
move assignment of a GID to itself leaves the store unchanged; assignment from
a 64-bit integer `v` gives `(0, v)`. -/
theorem C31_move_and_self_assignment (s : gid_type) (m : Nat → gid_type)
    (this_ptr rhs_ptr : Nat) (hne : this_ptr ≠ rhs_ptr) (v : Nat) :
    ((gid_type.move s).1 = ⟨detail.strip_lock_from_gid s.id_msb_, s.id_lsb_⟩ ∧
      (gid_type.move s).2 = ⟨0, 0⟩ ∧ (gid_type.move s).2 = invalid_gid ∧
      (gid_type.move s).2.is_locked = false) ∧
    (gid_type.operator_assign_move m this_ptr rhs_ptr this_ptr =
        ⟨detail.strip_lock_from_gid (m rhs_ptr).id_msb_, (m rhs_ptr).id_lsb_⟩ ∧
      gid_type.operator_assign_move m this_ptr rhs_ptr rhs_ptr = ⟨0, 0⟩ ∧
      (gid_type.operator_assign_move m this_ptr rhs_ptr rhs_ptr).is_locked = false ∧
      (∀ p, p ≠ this_ptr → p ≠ rhs_ptr →
        gid_type.operator_assign_move m this_ptr rhs_ptr p = m p)) ∧
    (gid_type.operator_assign m this_ptr this_ptr = m ∧
      gid_type.operator_assign_move m this_ptr this_ptr = m) ∧
    (gid_type.operator_assign_lsb m this_ptr v this_ptr = ⟨0, v⟩ ∧
      (∀ p, p ≠ this_ptr → gid_type.operator_assign_lsb m this_ptr v p = m p)) := by
  have hz : gid_type.is_locked ⟨0, 0⟩ = false := by decide
  refine ⟨⟨rfl, rfl, rfl, hz⟩, ⟨?_, ?_, ?_, ?_⟩, ⟨?_, ?_⟩, ⟨?_, ?_⟩⟩
  · rw [gid_type.operator_assign_move, if_pos hne, Function.update_noteq hne,
      Function.update_same]
    rfl
  · rw [gid_type.operator_assign_move, if_pos hne, Function.update_same]
  · rw [gid_type.operator_assign_move, if_pos hne, Function.update_same]
    exact hz
  · intro p h1 h2
    rw [gid_type.operator_assign_move, if_pos hne, Function.update_noteq h2,
      Function.update_noteq h1]
  · rw [gid_type.operator_assign, if_neg (fun h => h rfl)]
  · rw [gid_type.operator_assign_move, if_neg (fun h => h rfl)]
  · rw [gid_type.operator_assign_lsb, Function.update_same]
  · intro p h1
    rw [gid_type.operator_assign_lsb, Function.update_noteq h1]

/-- C31 at a store holding the locked GID `(0x462000000, 7)` at every address,
moving into address 0 from address 1. -/
theorem C31_move_and_self_assignment_witness :
    (0 : Nat) ≠ 1 ∧
      gid_type.operator_assign_move (fun _ => ⟨0x462000000, 7⟩) 0 1 0 =
        ⟨detail.strip_lock_from_gid 0x462000000, 7⟩ ∧
      detail.strip_lock_from_gid 0x462000000 = 0x442000000 ∧
      gid_type.operator_assign_move (fun _ => ⟨0x462000000, 7⟩) 0 1 1 = ⟨0, 0⟩ :=
  have t := C31_move_and_self_assignment ⟨0, 0⟩ (fun _ => ⟨0x462000000, 7⟩) 0 1
    (by decide) 0
  ⟨by decide, t.2.1.1, by decide, t.2.1.2.1⟩

/-- C32, the code at the failing input: the mask of
`strip_internal_bits_except_dont_cache_from_gid` is
`credit_bits_mask | is_locked_mask`, bits 24..31, so the function keeps bit 22
(`is_migratable`) besides bit 23 (`dont_cache`); on `msb = 0x400000` it returns
`0x400000`, while the stripped word with `dont_cache` restored is 0; the same
holds for `get_stripped_gid_except_dont_cache`.  The two agree when
`is_migratable` is clear. -/
theorem C32_except_dont_cache_keeps_is_migratable (msb : Nat) :
    (∀ i, (detail.strip_internal_bits_except_dont_cache_from_gid msb).testBit i =
      (msb.testBit i && decide (i < 64) && !decide (24 ≤ i ∧ i ≤ 31))) ∧
    detail.strip_internal_bits_except_dont_cache_from_gid msb =
      detail.strip_internal_bits_from_gid msb |||
        (msb &&& (gid_type.dont_cache_mask ||| gid_type.is_migratable)) ∧
    (msb.testBit 22 = false →
      detail.strip_internal_bits_except_dont_cache_from_gid msb =
        detail.strip_internal_bits_from_gid msb ||| (msb &&& gid_type.dont_cache_mask)) ∧
    detail.strip_internal_bits_except_dont_cache_from_gid 0x400000 = 0x400000 ∧
    (detail.strip_internal_bits_from_gid 0x400000 |||
      (0x400000 &&& gid_type.dont_cache_mask)) = 0 ∧
    detail.get_stripped_gid_except_dont_cache ⟨0x400000, 5⟩ = ⟨0x400000, 5⟩ ∧
    detail.get_stripped_gid ⟨0x400000, 5⟩ = ⟨0, 5⟩ ∧
    detail.is_migratable (detail.get_stripped_gid_except_dont_cache ⟨0x400000, 5⟩) = true ∧
    gid_type.internal_bits_mask &&& gid_type.is_migratable = gid_type.is_migratable := by
  refine ⟨testBit_strip_except_dont_cache msb, strip_except_dont_cache_eq msb, ?_,
    by decide, by decide, by decide, by decide, by decide, by decide⟩
  intro h22
  have h23 : gid_type.dont_cache_mask = 2 ^ 23 := by decide
  apply Nat.eq_of_testBit_eq
  intro i
  rw [testBit_strip_except_dont_cache, Nat.testBit_or, testBit_strip_internal,
    Nat.testBit_and, h23, Nat.testBit_two_pow]
  by_cases h1 : i = 22
  · subst h1
    simp [h22]
  · by_cases h2 : i = 23
    · subst h2
      simp
    · have e1 : ¬ 23 = i := fun e => h2 e.symm
      rw [decide_eq_false e1]
      by_cases h3 : 24 ≤ i ∧ i ≤ 31
      · have h4 : 22 ≤ i ∧ i ≤ 31 := by omega
        rw [decide_eq_true h3, decide_eq_true h4]
        simp
      · have h4 : ¬ (22 ≤ i ∧ i ≤ 31) := by omega
        rw [decide_eq_false h3, decide_eq_false h4]
        simp

/-! ## Split-then-drop sequences on one handle -/

end hpx.naming
